import Mathlib

/-!
# FFmpegPlayer: packet queues, frame ring buffer, demux coordinator, display scheduler

A shallow embedding of `src/video/fqueue.h`, `src/video/vqueue.h`,
`src/video/parserunnable.cpp`, `src/video/displayrunnable.cpp` and, of
`src/video/ffmpegdecoder.cpp`, the functions they call into and the facade
operations `pauseResume`, `setVolume`, `volume`, `close` and `openDecoder`.

Conventions of the embedding.

* C++ objects are records; a member function is a function from the record (and the
  values the environment supplies to that call) to the new record.
* `int64_t` arithmetic is reduced with `wrapInt64`; a theorem that needs an addition
  not to overflow says so in a hypothesis.
* A `double` is the rational it holds. The clock sums of `pauseResume` and
  `seekWhilePaused` are rounded operation by operation with `roundDouble`
  (binary64, round to nearest, ties to even). The delay
  `m_displayTime - current_time` of the display scheduler is compared unrounded,
  and `0.005` is `5 / 1000`. Infinities and NaN are outside the embedding.
* Calls into collaborators (listener, container, codec, audio sink) are recorded
  as an `Event` log, in call order.
* A blocking wait is a gate: a function whose thread would stay blocked returns the
  `blocked` / `waiting` outcome; what other threads did in the meantime is supplied
  as the list of states the waiter sees at its wake-ups.
* `assert` is that of a release build: it has no effect. A write through a null
  pointer is an outcome of its own (`nullDereference`).
-/

namespace FFmpegPlayer

/-! ## Machine integers -/

/-- Value held by an `int64_t` after storing the mathematical integer `x`
(two's complement reduction). -/
def wrapInt64 (x : Int) : Int :=
  (x + 9223372036854775808) % 18446744073709551616 - 9223372036854775808

/-- Largest value of an `int64_t`. -/
def INT64_MAX : Int := 9223372036854775807

/-! ## `double` arithmetic -/

/-- The integer nearest to `x`; when `x` lies halfway between two integers, the
even one. -/
def roundHalfEven (x : ℚ) : Int :=
  if x - ⌊x⌋ < 1 / 2 then ⌊x⌋
  else if 1 / 2 < x - ⌊x⌋ then ⌊x⌋ + 1
  else if ⌊x⌋ % 2 = 0 then ⌊x⌋
  else ⌊x⌋ + 1

/-- Binary exponent of the binade of `x`: the `e` with `2 ^ e ≤ |x| < 2 ^ (e + 1)`,
and the least normal exponent `-1022` for the subnormal magnitudes below
`2 ^ (-1022)`. (For `x = 0` the value does not matter: zero rounds to zero.) -/
def binade (x : ℚ) : Int := max (Int.log 2 |x|) (-1022)

/-- Distance between neighbouring `double` values in the binade of `x`
(53 significant bits). -/
def ulp (x : ℚ) : ℚ := 2 ^ (binade x - 52)

/-- The `double` that an arithmetic operation of exact result `x` produces:
the multiple of `ulp x` nearest to `x`, ties to the even multiple (IEEE 754
binary64, the default rounding mode). The exponent is not bounded above: a result
beyond `DBL_MAX`, which the machine replaces by an infinity, is outside the
embedding. -/
def roundDouble (x : ℚ) : ℚ := (roundHalfEven (x / ulp x) : ℚ) * ulp x

/-- Largest finite `double`: `(2 ^ 53 - 1) * 2 ^ 971`. -/
def DBL_MAX : ℚ := (2 ^ 53 - 1) * 2 ^ 971

/-! ## `AVPacket` and `FQueue` (src/video/fqueue.h) -/

/-- The fields of the codec library's `AVPacket` the player reads: the stream the
packet belongs to, its payload size in bytes, its time stamps, and the payload
handle `data`. -/
structure AVPacket where
  stream_index : Int
  size : Int
  pts : Int
  dts : Int
  data : Nat
deriving DecidableEq, Repr

/-- `class FQueue`: the byte counter `m_packetsSize` and the deque `m_queue`
(front of the deque = head of the list). -/
structure FQueue where
  m_packetsSize : Int
  m_queue : List AVPacket
deriving DecidableEq, Repr

namespace FQueue

/-- `FQueue() : m_packetsSize(0) {}` with an empty deque. -/
def new : FQueue := { m_packetsSize := 0, m_queue := [] }

/-- `AVPacket dequeue()`: `front()`, `pop_front()`, `m_packetsSize -= packet.size`.
On an empty deque (`assert(!m_queue.empty())` fails, `front()` is undefined) the
result is `none`. The second assertion, `m_packetsSize >= 0`, is not built into the
embedding; it is a proof obligation. -/
def dequeue (q : FQueue) : Option (AVPacket × FQueue) :=
  match q.m_queue with
  | [] => none
  | packet :: rest =>
    some (packet, { m_packetsSize := wrapInt64 (q.m_packetsSize - packet.size), m_queue := rest })

/-- `void enqueue(const AVPacket& packet)`: `m_packetsSize += packet.size`,
`m_queue.push_back(packet)`. -/
def enqueue (q : FQueue) (packet : AVPacket) : FQueue :=
  { m_packetsSize := wrapInt64 (q.m_packetsSize + packet.size), m_queue := q.m_queue ++ [packet] }

/-- `int size() const` (both overloads: the mutex only serialises the read). The
narrowing of `m_queue.size()` to `int` is not modelled: a deque holds fewer than
2^31 packets. -/
def size (q : FQueue) : Int := (q.m_queue.length : Int)

/-- `int64_t packetsSize() const`. -/
def packetsSize (q : FQueue) : Int := q.m_packetsSize

/-- `void clear()`: every held packet is freed, the counter is reset and the deque
is swapped with an empty one. -/
def clear (_q : FQueue) : FQueue := { m_packetsSize := 0, m_queue := [] }

end FQueue

/-- One call on an `FQueue`. -/
inductive QueueOp where
  | enqueue (packet : AVPacket)
  | dequeue
deriving DecidableEq, Repr

/-- Sum of the `size` fields of a list of packets. -/
def sizeSum (l : List AVPacket) : Int := (l.map AVPacket.size).sum

/-- The packets a call sequence enqueues, in call order. -/
def enqueued : List QueueOp → List AVPacket
  | [] => []
  | QueueOp.enqueue p :: ops => p :: enqueued ops
  | QueueOp.dequeue :: ops => enqueued ops

/-- Number of `dequeue` calls in a call sequence. -/
def dequeueCount : List QueueOp → Nat
  | [] => 0
  | QueueOp.enqueue _ :: ops => dequeueCount ops
  | QueueOp.dequeue :: ops => dequeueCount ops + 1

/-- A call sequence dequeues only from a non-empty queue, when started on a queue
holding `held` packets. -/
def dequeuesNonEmpty : Nat → List QueueOp → Bool
  | _, [] => true
  | held, QueueOp.enqueue _ :: ops => dequeuesNonEmpty (held + 1) ops
  | held, QueueOp.dequeue :: ops => decide (0 < held) && dequeuesNonEmpty (held - 1) ops

/-- Runs a call sequence on a queue: the final queue and the packets returned by the
`dequeue` calls, in call order; `none` when a `dequeue` hits an empty queue. -/
def FQueue.run : FQueue → List QueueOp → Option (FQueue × List AVPacket)
  | q, [] => some (q, [])
  | q, QueueOp.enqueue p :: ops => FQueue.run (q.enqueue p) ops
  | q, QueueOp.dequeue :: ops =>
    match q.dequeue with
    | none => none
    | some (p, q') =>
      match FQueue.run q' ops with
      | none => none
      | some (q'', outs) => some (q'', p :: outs)

/-! ## Frames and the ring buffer (src/video/fpicture.h, videoframe.h, vqueue.h) -/

/-- Value an `int` holds after storing the mathematical integer `x` (the narrowing
conversion of an out-of-range value, two's complement). -/
def wrapInt32 (x : Int) : Int := (x + 2147483648) % 4294967296 - 2147483648

/-- Conversion of an `int` to `size_t` (64 bit): reduction modulo 2^64. -/
def toSizeT (x : Int) : Int := x % 18446744073709551616

/-- Largest value of an `int`. -/
def INT_MAX : Int := 2147483647

/-- The codec library's `AV_PIX_FMT_NONE`. -/
def AV_PIX_FMT_NONE : Int := -1

/-- `struct FPicture`: dimensions, pixel format and the handle of the pixel buffer
(`none` when nothing is allocated). -/
structure FPicture where
  width : Int
  height : Int
  pix_fmt : Int
  data : Option Nat
deriving DecidableEq, Repr

/-- `FPicture()`: no buffer, zero dimensions, `AV_PIX_FMT_NONE`. -/
def FPicture.new : FPicture := { width := 0, height := 0, pix_fmt := AV_PIX_FMT_NONE, data := none }

/-- `void free()`: `avpicture_free`, then dimensions and format are reset. -/
def FPicture.free (_p : FPicture) : FPicture :=
  { width := 0, height := 0, pix_fmt := AV_PIX_FMT_NONE, data := none }

/-- `struct VideoFrame`. -/
structure VideoFrame where
  m_displayTime : ℚ
  m_duration : Int
  m_image : FPicture
deriving DecidableEq, Repr

/-- `struct VQueue`: the array `m_frames` (its length is `VIDEO_PICTURE_QUEUE_SIZE`,
a constant of a header that is not among the sources), the two cursors and the
occupancy. -/
structure VQueue where
  m_frames : List VideoFrame
  m_write_counter : Int
  m_read_counter : Int
  m_busy : Int
deriving DecidableEq, Repr

namespace VQueue

/-- `VQueue()`: the counters are zero. The array elements are default-initialised:
each image is `FPicture()`, while `m_displayTime` and `m_duration` are left
indeterminate and are taken from `slots`, whose length is the array length. -/
def new (slots : List VideoFrame) : VQueue :=
  { m_frames := slots.map (fun f => { f with m_image := FPicture.new }),
    m_write_counter := 0, m_read_counter := 0, m_busy := 0 }

/-- `void clear()`: every image is freed, cursors and occupancy are reset. -/
def clear (q : VQueue) : VQueue :=
  { m_frames := q.m_frames.map (fun f => { f with m_image := f.m_image.free }),
    m_write_counter := 0, m_read_counter := 0, m_busy := 0 }

/-- `void setDisplayTime(double displayTime)`. -/
def setDisplayTime (q : VQueue) (displayTime : ℚ) : VQueue :=
  { q with m_frames := q.m_frames.map (fun f => { f with m_displayTime := displayTime }) }

/-- `m_frames[i]`; `none` when `i` is outside the array. -/
def frameAt (q : VQueue) (i : Int) : Option VideoFrame :=
  if 0 ≤ i then q.m_frames[i.toNat]? else none

/-- `sizeof(m_frames) / sizeof(m_frames[0])`. -/
def capacity (q : VQueue) : Int := (q.m_frames.length : Int)

end VQueue

/-! ## Calls into collaborators -/

/-- Calls the engine makes into its collaborators: the decoder listener, the frame
listener, the container, the codecs and the audio sink. -/
inductive Event where
  | onEndOfStream
  | updateFrame
  | changedFramePosition (frame total : Int)
  | drawFrame
  | avformat_seek_file (stream_index min_ts ts max_ts : Int)
  | avcodec_flush_buffers_video
  | avcodec_flush_buffers_audio
  | WaveOutReset
  | SetVolume (volume : ℚ)
  | volumeChanged (volume : ℚ)
  | fileLoaded
  | fileReleased
  | decoderClosed
  | playingFinished
deriving DecidableEq, Repr

/-- Is the call a reposition of the container. -/
def Event.isReposition : Event → Bool
  | Event.avformat_seek_file _ _ _ _ => true
  | _ => false

/-! ## Library records and the audio sink -/

/-- The codec library's `AVMEDIA_TYPE_VIDEO`. -/
def AVMEDIA_TYPE_VIDEO : Int := 0

/-- The codec library's `AVMEDIA_TYPE_AUDIO`. -/
def AVMEDIA_TYPE_AUDIO : Int := 1

/-- The fields of the codec library's `AVCodecContext` that `openDecoder` reads. -/
structure AVCodecContext where
  codec_type : Int
  codec_id : Int
  width : Int
  height : Int
deriving DecidableEq, Repr

/-- The codec library's `AVRational`: numerator and denominator. -/
structure AVRational where
  num : Int
  den : Int
deriving DecidableEq, Repr

/-- The fields of the codec library's `AVStream` that `openDecoder` reads. -/
structure AVStream where
  codec : AVCodecContext
  nb_frames : Int
  duration : Int
  time_base : AVRational
deriving DecidableEq, Repr

/-- Modelled from the spec: the audio sink behind `IAudioPlayer`, whose
implementations are not among the sources. The embedding keeps whether the sink is
open and its volume: `GetVolume` returns the last value passed to `SetVolume`. -/
structure IAudioPlayer where
  isOpen : Bool
  volume : ℚ
deriving DecidableEq, Repr

namespace IAudioPlayer

/-- Modelled from the spec: `SetVolume` stores the volume. -/
def SetVolume (player : IAudioPlayer) (volume : ℚ) : IAudioPlayer :=
  { player with volume := volume }

/-- Modelled from the spec: `GetVolume` returns the last value set. -/
def GetVolume (player : IAudioPlayer) : ℚ := player.volume

/-- Modelled from the spec: `Open` succeeds or fails as the platform decides
(`accepted`), and the sink is open afterwards exactly when it succeeded. -/
def Open (player : IAudioPlayer) (accepted : Bool) : Bool × IAudioPlayer :=
  (accepted, { player with isOpen := accepted })

/-- Modelled from the spec: `Close` closes the sink. -/
def Close (player : IAudioPlayer) : IAudioPlayer := { player with isOpen := false }

/-- Modelled from the spec: `Reset` drops what is buffered; open state and volume
stay. -/
def Reset (player : IAudioPlayer) : IAudioPlayer := player

end IAudioPlayer

/-! ## `FFmpegDecoder` (src/video/ffmpegdecoder.cpp) -/

/-- Compile-time constants of `ffmpegdecoder.h`, which is not among the sources;
they are parameters of the embedding. -/
structure Limits where
  MAX_QUEUE_SIZE : Int
  MAX_VIDEO_FRAMES : Int
  MAX_AUDIO_FRAMES : Int
deriving DecidableEq, Repr

/-- The members of `FFmpegDecoder` the embedded functions read or write. Pointers
to collaborators and library objects are booleans (non-null); a thread handle is
`none` when null and otherwise carries the number of the thread started for it; a
stream handle is `none` when null and otherwise carries the stream it points to;
`m_audioPlayer` is the sink the engine owns. -/
structure FFmpegDecoder where
  m_frameListener : Bool
  m_decoderListener : Bool
  m_formatContext : Bool
  m_videoCodecContext : Bool
  m_audioCodecContext : Bool
  m_videoStreamNumber : Int
  m_audioStreamNumber : Int
  m_frameTotalCount : Int
  m_duration : Int
  m_audioPTS : ℚ
  m_videoStartClock : ℚ
  m_pauseTimer : ℚ
  m_frameDisplayingRequested : Bool
  m_isPaused : Bool
  m_seekDuration : Int
  m_isAudioSeekingWhilePaused : Bool
  m_isVideoSeekingWhilePaused : Bool
  m_isPlaying : Bool
  m_videoPacketsQueue : FQueue
  m_audioPacketsQueue : FQueue
  m_videoFramesQueue : VQueue
  m_mainParseThread : Option Nat
  m_mainVideoThread : Option Nat
  m_mainAudioThread : Option Nat
  m_mainDisplayThread : Option Nat
  m_videoCodec : Bool := false
  m_audioCodec : Bool := false
  m_videoFrame : Bool := false
  m_audioFrame : Bool := false
  m_audioSwrContext : Bool := false
  m_imageCovertContext : Bool := false
  m_videoStream : Option AVStream := none
  m_audioStream : Option AVStream := none
  m_audioPlayer : IAudioPlayer := { isOpen := false, volume := 1 }
deriving DecidableEq, Repr

/-- `handle.reset(new boost::thread(...))`: the handle now owns a new thread. -/
def startThread (handle : Option Nat) : Option Nat :=
  match handle with
  | none => some 0
  | some n => some (n + 1)

namespace FFmpegDecoder

/-- `void finishedDisplayingFrame()`: `--m_busy`, the read cursor moves on by one
modulo the array length (the sum is converted to `size_t` for the division and the
remainder back to `int`), `m_frameDisplayingRequested = false`. The decrement is a
plain subtraction: it overflows only at the smallest `int`. -/
def finishedDisplayingFrame (ff : FFmpegDecoder) : FFmpegDecoder :=
  { ff with
    m_videoFramesQueue :=
      { ff.m_videoFramesQueue with
        m_busy := ff.m_videoFramesQueue.m_busy - 1
        m_read_counter :=
          wrapInt32 (toSizeT (ff.m_videoFramesQueue.m_read_counter + 1) %
            ff.m_videoFramesQueue.capacity) }
    m_frameDisplayingRequested := false }

/-- `bool seekDuration(int64_t duration)`: with a Coordinator thread the pending
target is exchanged for `duration` (and the queue waiters are notified when none was
pending); without one nothing is stored. The result is always `true`. -/
def seekDuration (ff : FFmpegDecoder) (duration : Int) : Bool × FFmpegDecoder :=
  if ff.m_mainParseThread.isSome then
    (true, { ff with m_seekDuration := duration })
  else
    (true, ff)

/-- `void seekWhilePaused()`. `casTime` is the clock reading inside the
compare-exchange that succeeds, `pauseTime` the reading stored in `m_pauseTimer`.
The new clock offset `v + GetHiResTime() - m_pauseTimer` is a `double` addition
followed by a `double` subtraction. -/
def seekWhilePaused (ff : FFmpegDecoder) (casTime pauseTime : ℚ) : FFmpegDecoder :=
  if ff.m_isPaused then
    { ff with
      m_videoStartClock :=
        roundDouble (roundDouble (ff.m_videoStartClock + casTime) - ff.m_pauseTimer)
      m_pauseTimer := pauseTime
      m_isAudioSeekingWhilePaused := true
      m_isVideoSeekingWhilePaused := true }
  else
    { ff with
      m_isAudioSeekingWhilePaused := false
      m_isVideoSeekingWhilePaused := false }

end FFmpegDecoder

/-! ## `DisplayRunnable` (src/video/displayrunnable.cpp) -/

/-- Outcome of one iteration of the loop of `DisplayRunnable::operator()`. -/
inductive DisplayStep where
  /-- The predicate of `m_videoFramesCV.wait` is false: the thread stays blocked. -/
  | blocked
  /-- The read cursor is outside `m_frames`. -/
  | outOfRange
  /-- The delay loop has not ended within the clock readings supplied. -/
  | sleeping
  /-- The iteration ran to its end: new state and the calls made, in order. -/
  | done (ff : FFmpegDecoder) (events : List Event)
deriving DecidableEq, Repr

/-- The delay loop of `DisplayRunnable::operator()`, one clock reading per pass:
`true` when a pass breaks out of the loop. -/
def delayLoopEnds (displayTime : ℚ) : List ℚ → Bool
  | [] => false
  | current_time :: later =>
    if displayTime - current_time < 5 / 1000 then true
    else if displayTime - current_time > 3 then delayLoopEnds displayTime later
    else true

/-- One iteration of the `for (;;)` of `DisplayRunnable::operator()`. `now` is the
clock reading of the frame-skip test, `clock` the readings of the delay loop. -/
def DisplayRunnable.iteration (ff : FFmpegDecoder) (now : ℚ) (clock : List ℚ) : DisplayStep :=
  if !(!ff.m_frameDisplayingRequested && ff.m_videoFramesQueue.m_busy != 0) then
    DisplayStep.blocked
  else
    match ff.m_videoFramesQueue.frameAt ff.m_videoFramesQueue.m_read_counter with
    | none => DisplayStep.outOfRange
    | some current_frame =>
      if ff.m_videoFramesQueue.m_busy > 1 ∧ current_frame.m_displayTime < now then
        DisplayStep.done ff.finishedDisplayingFrame []
      else
        let ff1 := { ff with m_frameDisplayingRequested := true }
        let update := if ff.m_frameListener then [Event.updateFrame] else []
        if delayLoopEnds current_frame.m_displayTime clock then
          let position :=
            if ff.m_decoderListener then
              [Event.changedFramePosition current_frame.m_duration ff.m_duration]
            else []
          if ff.m_frameListener then
            DisplayStep.done ff1 (update ++ position ++ [Event.drawFrame])
          else
            DisplayStep.done ff1.finishedDisplayingFrame (update ++ position)
        else
          DisplayStep.sleeping

/-! ## `ParseRunnable` (src/video/parserunnable.cpp) -/

/-- The codec library's `AVERROR_EOF`, `-MKTAG('E','O','F',' ')`. -/
def AVERROR_EOF : Int := -541478725

/-- `class ParseRunnable`: the engine it points to and `reader_eof`. -/
structure ParseRunnable where
  m_ffmpeg : FFmpegDecoder
  reader_eof : Bool
deriving DecidableEq, Repr

/-- Outcome of `ParseRunnable::dispatchPacket`. -/
inductive DispatchOutcome where
  /-- The packet was enqueued and the guard released: a queue owns the packet. -/
  | inserted (ff : FFmpegDecoder)
  /-- The call returned through the guard, which frees the packet. -/
  | freed (ff : FFmpegDecoder)
  /-- The caller is still blocked in `m_packetsQueueCV.wait`. -/
  | waiting
deriving DecidableEq, Repr

/-- What the environment supplies to one `sendSeekPacket`: the result of
`avformat_seek_file` and the three clock readings (in `sendSeekPacket`, and the two of
`seekWhilePaused`). -/
structure SeekEnv where
  seek_ret : Int
  currentTime : ℚ
  casTime : ℚ
  pauseTime : ℚ
deriving DecidableEq, Repr

namespace ParseRunnable

/-- `bool readFrame(AVPacket*)`, for the result `ret` of `av_read_frame`. -/
def readFrame (pr : ParseRunnable) (ret : Int) : Bool × ParseRunnable :=
  if ret ≥ 0 then
    (decide (ret ≥ 0), { pr with reader_eof := false })
  else
    (decide (ret ≥ 0), { pr with reader_eof := decide (ret = AVERROR_EOF) })

/-- The wait loop of the video branch of `dispatchPacket`, entered in state `ff`;
`wakeups` are the engine states the caller finds at its successive returns from
`m_packetsQueueCV.wait`. -/
def videoWait (cfg : Limits) (packet : AVPacket) :
    FFmpegDecoder → List FFmpegDecoder → DispatchOutcome
  | ff, [] =>
    if ff.m_videoPacketsQueue.packetsSize ≥ cfg.MAX_QUEUE_SIZE ∨
        ff.m_videoPacketsQueue.size ≥ cfg.MAX_VIDEO_FRAMES then
      if ff.m_seekDuration ≥ 0 then DispatchOutcome.freed ff
      else DispatchOutcome.waiting
    else
      DispatchOutcome.inserted
        { ff with m_videoPacketsQueue := ff.m_videoPacketsQueue.enqueue packet }
  | ff, next :: later =>
    if ff.m_videoPacketsQueue.packetsSize ≥ cfg.MAX_QUEUE_SIZE ∨
        ff.m_videoPacketsQueue.size ≥ cfg.MAX_VIDEO_FRAMES then
      if ff.m_seekDuration ≥ 0 then DispatchOutcome.freed ff
      else videoWait cfg packet next later
    else
      DispatchOutcome.inserted
        { ff with m_videoPacketsQueue := ff.m_videoPacketsQueue.enqueue packet }

/-- The wait loop of the audio branch of `dispatchPacket`. -/
def audioWait (cfg : Limits) (packet : AVPacket) :
    FFmpegDecoder → List FFmpegDecoder → DispatchOutcome
  | ff, [] =>
    if ff.m_audioPacketsQueue.packetsSize ≥ cfg.MAX_QUEUE_SIZE ∨
        ff.m_audioPacketsQueue.size ≥ cfg.MAX_AUDIO_FRAMES then
      if ff.m_seekDuration ≥ 0 then DispatchOutcome.freed ff
      else DispatchOutcome.waiting
    else
      DispatchOutcome.inserted
        { ff with m_audioPacketsQueue := ff.m_audioPacketsQueue.enqueue packet }
  | ff, next :: later =>
    if ff.m_audioPacketsQueue.packetsSize ≥ cfg.MAX_QUEUE_SIZE ∨
        ff.m_audioPacketsQueue.size ≥ cfg.MAX_AUDIO_FRAMES then
      if ff.m_seekDuration ≥ 0 then DispatchOutcome.freed ff
      else audioWait cfg packet next later
    else
      DispatchOutcome.inserted
        { ff with m_audioPacketsQueue := ff.m_audioPacketsQueue.enqueue packet }

/-- `void dispatchPacket(AVPacket& packet)` on the engine state `ff`. -/
def dispatchPacket (cfg : Limits) (ff : FFmpegDecoder) (wakeups : List FFmpegDecoder)
    (packet : AVPacket) : DispatchOutcome :=
  if ff.m_seekDuration ≥ 0 then
    DispatchOutcome.freed ff
  else if packet.stream_index = ff.m_videoStreamNumber then
    videoWait cfg packet ff wakeups
  else if packet.stream_index = ff.m_audioStreamNumber then
    audioWait cfg packet ff wakeups
  else
    DispatchOutcome.freed ff

/-- `void startAudioThread(FFmpegDecoder*)`. -/
def startAudioThread (ff : FFmpegDecoder) : FFmpegDecoder :=
  if ff.m_audioStreamNumber ≥ 0 then
    { ff with m_mainAudioThread := startThread ff.m_mainAudioThread }
  else ff

/-- `void startVideoThread(FFmpegDecoder*)`. -/
def startVideoThread (ff : FFmpegDecoder) : FFmpegDecoder :=
  if ff.m_videoStreamNumber ≥ 0 then
    { ff with m_mainVideoThread := startThread ff.m_mainVideoThread }
  else ff

/-- `void sendSeekPacket()` on the engine state `ff`: the new state and the calls
made. Interrupting and joining a worker leaves its handle in place; the restart
replaces the thread the handle owns. -/
def sendSeekPacket (ff : FFmpegDecoder) (env : SeekEnv) : FFmpegDecoder × List Event :=
  let seekDuration := ff.m_seekDuration
  let ff0 := { ff with m_seekDuration := -1 }
  if seekDuration < 0 then
    (ff0, [])
  else
    let reposition :=
      [Event.avformat_seek_file ff0.m_videoStreamNumber 0 seekDuration seekDuration]
    if env.seek_ret < 0 then
      (ff0, reposition)
    else
      let hasVideo := ff0.m_mainVideoThread.isSome
      let hasAudio := ff0.m_mainAudioThread.isSome
      let ff1 :=
        { ff0 with
          m_videoPacketsQueue := ff0.m_videoPacketsQueue.clear
          m_audioPacketsQueue := ff0.m_audioPacketsQueue.clear }
      let ff2 :=
        if hasVideo then
          { ff1 with m_videoFramesQueue := ff1.m_videoFramesQueue.setDisplayTime env.currentTime }
        else ff1
      let videoCalls :=
        if hasVideo then (if ff1.m_videoCodecContext then [Event.avcodec_flush_buffers_video] else [])
        else []
      let audioCalls :=
        if hasAudio then
          (if ff1.m_audioCodecContext then [Event.avcodec_flush_buffers_audio] else []) ++ [Event.WaveOutReset]
        else []
      let ff3 := ff2.seekWhilePaused env.casTime env.pauseTime
      let ff4 :=
        if hasVideo then { ff3 with m_mainVideoThread := startThread ff3.m_mainVideoThread }
        else ff3
      let ff5 :=
        if hasAudio then { ff4 with m_mainAudioThread := startThread ff4.m_mainAudioThread }
        else ff4
      (ff5, reposition ++ videoCalls ++ audioCalls)

end ParseRunnable

/-- What the environment supplies to one iteration of the Coordinator loop. -/
structure IterationEnv where
  /-- Result of `boost::this_thread::interruption_requested()`. -/
  interruption_requested : Bool
  /-- What the other threads did to the engine since the previous iteration. -/
  others : FFmpegDecoder → FFmpegDecoder
  /-- Inputs of `sendSeekPacket`. -/
  seek : SeekEnv
  /-- Result of `av_read_frame`. -/
  read_ret : Int
  /-- The packet `av_read_frame` filled in (meaningful when `read_ret ≥ 0`). -/
  packet : AVPacket
  /-- Engine states found at the wake-ups inside `dispatchPacket`. -/
  wakeups : List FFmpegDecoder

/-- Outcome of one iteration of the `for (;;)` of `ParseRunnable::operator()`. -/
inductive LoopStep where
  /-- An interruption was requested: `operator()` returns. -/
  | returned
  /-- The Coordinator is blocked inside `dispatchPacket`. -/
  | stalled
  /-- The iteration ended: the runnable, the local `eof`, and the calls made. -/
  | continues (pr : ParseRunnable) (eof : Bool) (events : List Event)
deriving DecidableEq, Repr

namespace ParseRunnable

/-- The calls of the end-of-input branch (after a failed read) in engine state `ff`,
with the local flag `eof`. -/
def endOfInputCalls (ff : FFmpegDecoder) (eof : Bool) : List Event :=
  if eof then
    if decide (ff.m_videoPacketsQueue.size = 0) && decide (ff.m_audioPacketsQueue.size = 0) &&
        decide (ff.m_videoFramesQueue.m_busy = 0) then
      if ff.m_decoderListener then [Event.onEndOfStream] else []
    else []
  else []

/-- One iteration of the `for (;;)` of `ParseRunnable::operator()`, entered with the
local flag `eof`. -/
def iteration (cfg : Limits) (pr : ParseRunnable) (eof : Bool) (env : IterationEnv) : LoopStep :=
  if env.interruption_requested then
    LoopStep.returned
  else
    let sought := sendSeekPacket (env.others pr.m_ffmpeg) env.seek
    let read := readFrame { pr with m_ffmpeg := sought.1 } env.read_ret
    if read.1 then
      match dispatchPacket cfg read.2.m_ffmpeg env.wakeups env.packet with
      | DispatchOutcome.waiting => LoopStep.stalled
      | DispatchOutcome.inserted ff => LoopStep.continues { read.2 with m_ffmpeg := ff } false sought.2
      | DispatchOutcome.freed ff => LoopStep.continues { read.2 with m_ffmpeg := ff } false sought.2
    else
      LoopStep.continues read.2 read.2.reader_eof
        (sought.2 ++ endOfInputCalls read.2.m_ffmpeg eof)

/-- The loop of `ParseRunnable::operator()` from the runnable `pr` and local flag
`eof`, one `IterationEnv` per iteration: for each completed iteration, the runnable
after it and the calls it made. The list ends where the loop returns, stalls, or
the supplied environment ends. -/
def loopFrom (cfg : Limits) : ParseRunnable → Bool → List IterationEnv →
    List (ParseRunnable × List Event)
  | _, _, [] => []
  | pr, eof, env :: envs =>
    match iteration cfg pr eof env with
    | LoopStep.returned => []
    | LoopStep.stalled => []
    | LoopStep.continues pr' eof' events => (pr', events) :: loopFrom cfg pr' eof' envs

/-- The loop of `ParseRunnable::operator()` as entered from its prologue, where the
local `eof` is `false`. -/
def loop (cfg : Limits) (pr : ParseRunnable) (envs : List IterationEnv) :
    List (ParseRunnable × List Event) :=
  loopFrom cfg pr false envs

/-- All calls of a run of the loop, in order. -/
def callsOf (trace : List (ParseRunnable × List Event)) : List Event :=
  (trace.map Prod.snd).flatten

end ParseRunnable

/-! ## `FFmpegDecoder`: pause, volume, close and open (src/video/ffmpegdecoder.cpp) -/

/-- What the environment supplies to one `openDecoder`: whether the file could be
opened (`MyIOContext::valid()`), the results of `avformat_open_input` and
`avformat_find_stream_info`, the container's `duration` and `streams`, whether
`avcodec_find_decoder` finds a decoder for a codec id, the results of the two
`avcodec_open2` calls, and whether the audio sink accepts `Open`.
`format_duration stream` is the value the local `format_duration` takes for a
stream, `int64_t((m_formatContext->duration / av_q2d(stream->time_base)) / 1000000LL)`:
two `double` divisions and a conversion to `int64_t`, which the embedding does not
compute. -/
structure OpenEnv where
  file_valid : Bool
  open_input_error : Int
  find_stream_info_ret : Int
  duration : Int
  format_duration : AVStream → Int
  streams : List AVStream
  find_decoder : Int → Bool
  video_open2_ret : Int
  audio_open2_ret : Int
  audio_open : Bool

/-- Outcome of `openDecoder`. -/
inductive OpenResult where
  /-- The call returned `result`, leaving the engine `ff` after the calls `events`. -/
  | returned (result : Bool) (ff : FFmpegDecoder) (events : List Event)
  /-- The call dereferenced a null pointer (undefined behaviour) in engine state
  `ff`, after the calls `events`. -/
  | nullDereference (ff : FFmpegDecoder) (events : List Event)
deriving DecidableEq, Repr

/-- `m_formatContext->streams[n]->codec`; `none` when `n` is outside the array. -/
def codecOf (streams : List AVStream) (n : Int) : Option AVCodecContext :=
  if 0 ≤ n then (streams[n.toNat]?).map AVStream.codec else none

namespace FFmpegDecoder

/-- `bool pauseResume()`. `now` is the clock reading the call uses: inside the
compare-exchange that succeeds when resuming, stored in `m_pauseTimer` when
pausing. The new clock offset `v + GetHiResTime() - m_pauseTimer` is a `double`
addition followed by a `double` subtraction. -/
def pauseResume (ff : FFmpegDecoder) (now : ℚ) : Bool × FFmpegDecoder :=
  if ff.m_mainAudioThread.isNone || ff.m_mainVideoThread.isNone ||
      ff.m_mainParseThread.isNone then
    (false, ff)
  else if ff.m_isPaused then
    (true, { ff with
              m_videoStartClock :=
                roundDouble (roundDouble (ff.m_videoStartClock + now) - ff.m_pauseTimer)
              m_isPaused := false })
  else
    (true, { ff with m_isPaused := true, m_pauseTimer := now })

/-- `void setVolume(double volume)`: the new engine and the calls made. -/
def setVolume (ff : FFmpegDecoder) (volume : ℚ) : FFmpegDecoder × List Event :=
  if volume < 0 ∨ volume > 1 then
    (ff, [])
  else
    ({ ff with m_audioPlayer := ff.m_audioPlayer.SetVolume volume },
     [Event.SetVolume volume] ++
       (if ff.m_decoderListener then [Event.volumeChanged volume] else []))

/-- `double volume() const`. -/
def volume (ff : FFmpegDecoder) : ℚ := ff.m_audioPlayer.GetVolume

/-- `void resetVariables()`. -/
def resetVariables (ff : FFmpegDecoder) : FFmpegDecoder :=
  { ff with
    m_videoCodec := false
    m_formatContext := false
    m_videoCodecContext := false
    m_audioCodecContext := false
    m_videoFrame := false
    m_audioFrame := false
    m_audioSwrContext := false
    m_videoStream := none
    m_audioStream := none
    m_frameTotalCount := 0
    m_duration := 0
    m_imageCovertContext := false
    m_audioPTS := 0
    m_frameDisplayingRequested := false
    m_isPaused := false
    m_seekDuration := -1
    m_isAudioSeekingWhilePaused := false
    m_isVideoSeekingWhilePaused := false
    m_isPlaying := false }

/-- `void closeProcessing()`: the queues are cleared, the thread handles reset, the
sink reset, the ring buffer cleared, the library objects freed (`swr_free`,
`call_avcodec_close` and `avformat_close_input` null their pointer), the variables
reset, and the listener told. -/
def closeProcessing (ff : FFmpegDecoder) : FFmpegDecoder × List Event :=
  let ff1 :=
    { ff with
      m_audioPacketsQueue := ff.m_audioPacketsQueue.clear
      m_videoPacketsQueue := ff.m_videoPacketsQueue.clear
      m_mainVideoThread := none
      m_mainAudioThread := none
      m_mainParseThread := none
      m_mainDisplayThread := none
      m_audioPlayer := ff.m_audioPlayer.Reset
      m_videoFramesQueue := ff.m_videoFramesQueue.clear
      m_audioSwrContext := false
      m_videoCodecContext := false
      m_audioCodecContext := false }
  let isFileReallyClosed := ff1.m_formatContext
  let ff2 := { ff1 with m_formatContext := false }
  let ff3 := ff2.resetVariables
  (ff3,
   (if isFileReallyClosed then (if ff3.m_decoderListener then [Event.fileReleased] else [])
    else []) ++
   (if ff3.m_decoderListener then [Event.decoderClosed] else []))

/-- `void close()`: every thread present is interrupted and joined, the sink is
closed, `closeProcessing()` runs, and the listener is told. -/
def close (ff : FFmpegDecoder) : FFmpegDecoder × List Event :=
  let processed := closeProcessing { ff with m_audioPlayer := ff.m_audioPlayer.Close }
  (processed.1,
   processed.2 ++ (if processed.1.m_decoderListener then [Event.playingFinished] else []))

/-- The stream scan of `openDecoder` (the `for` loop after "Find the first video
stream"), from stream index `i` on. Stream indices fit an `int`. -/
def scanStreams : List AVStream → Nat → FFmpegDecoder → FFmpegDecoder
  | [], _, ff => ff
  | stream :: rest, i, ff =>
    if stream.codec.codec_type = AVMEDIA_TYPE_VIDEO then
      if ff.m_audioStreamNumber ≠ -1 then
        { ff with m_videoStream := some stream, m_videoStreamNumber := (i : Int) }
      else
        scanStreams rest (i + 1)
          { ff with m_videoStream := some stream, m_videoStreamNumber := (i : Int) }
    else if stream.codec.codec_type = AVMEDIA_TYPE_AUDIO then
      if ff.m_videoStreamNumber ≠ -1 then
        { ff with m_audioStream := some stream, m_audioStreamNumber := (i : Int) }
      else
        scanStreams rest (i + 1)
          { ff with m_audioStream := some stream, m_audioStreamNumber := (i : Int) }
    else
      scanStreams rest (i + 1) ff

/-- What the guards of `openDecoder` do on a `return false` once the codec contexts
are taken: `call_avcodec_close` on both contexts and `avformat_close_input`, each
nulling its pointer. -/
def releaseGuards (ff : FFmpegDecoder) : FFmpegDecoder :=
  { ff with m_audioCodecContext := false, m_videoCodecContext := false, m_formatContext := false }

/-- The part of `openDecoder` from "Open audio codec" on. -/
def openAudioAndFinish (ff : FFmpegDecoder) (events : List Event) (env : OpenEnv) : OpenResult :=
  if ff.m_audioStreamNumber ≥ 0 ∧ env.audio_open2_ret < 0 then
    OpenResult.returned false ff.releaseGuards events
  else if ff.m_audioStreamNumber ≥ 0 ∧ (ff.m_audioPlayer.Open env.audio_open).1 = false then
    OpenResult.returned false
      { ff with m_audioPlayer := (ff.m_audioPlayer.Open env.audio_open).2 }.releaseGuards events
  else
    OpenResult.returned true
      { ff with
        m_audioPlayer :=
          if ff.m_audioStreamNumber ≥ 0 then (ff.m_audioPlayer.Open env.audio_open).2
          else ff.m_audioPlayer
        m_videoFrame := true
        m_audioFrame := true }
      (events ++ (if ff.m_decoderListener then [Event.fileLoaded] else []))

/-- The part of `openDecoder` from "Open codec" on. -/
def openVideoCodec (ff : FFmpegDecoder) (events : List Event) (env : OpenEnv) : OpenResult :=
  if ff.m_videoStreamNumber ≥ 0 then
    if env.video_open2_ret < 0 then
      OpenResult.returned false ff.releaseGuards events
    else
      match codecOf env.streams ff.m_videoStreamNumber with
      | none => OpenResult.nullDereference ff events
      | some context =>
        if context.width ≤ 0 ∨ context.height ≤ 0 then
          OpenResult.returned false ff.releaseGuards events
        else
          openAudioAndFinish ff events env
  else
    openAudioAndFinish ff events env

/-- The part of `openDecoder` from "Find audio codec" on. -/
def findAudioDecoder (ff : FFmpegDecoder) (events : List Event) (env : OpenEnv) : OpenResult :=
  if ff.m_audioStreamNumber ≥ 0 then
    match codecOf env.streams ff.m_audioStreamNumber with
    | none => OpenResult.nullDereference ff events
    | some context =>
      if env.find_decoder context.codec_id then
        openVideoCodec { ff with m_audioCodec := true } events env
      else
        OpenResult.returned false { ff with m_audioCodec := false }.releaseGuards events
  else
    openVideoCodec ff events env

/-- The part of `openDecoder` from "Multithread decoding" on: the two writes through
`m_videoCodecContext`, which are not under a test of `m_videoStreamNumber`, and the
search of the video decoder. -/
def findVideoDecoder (ff : FFmpegDecoder) (events : List Event) (env : OpenEnv) : OpenResult :=
  if ff.m_videoCodecContext = false then
    OpenResult.nullDereference ff events
  else if ff.m_videoStreamNumber ≥ 0 then
    match codecOf env.streams ff.m_videoStreamNumber with
    | none => OpenResult.nullDereference ff events
    | some context =>
      if env.find_decoder context.codec_id then
        findAudioDecoder { ff with m_videoCodec := true } events env
      else
        OpenResult.returned false { ff with m_videoCodec := false }.releaseGuards events
  else
    findAudioDecoder ff events env

/-- The part of `openDecoder` between the stream scan and "Multithread decoding":
frame count and duration from the video stream, or the duration from the audio
stream when there is no video stream, then the two codec contexts. -/
def takeCodecContexts (ff : FFmpegDecoder) (env : OpenEnv) : Option FFmpegDecoder :=
  let withVideo : Option FFmpegDecoder :=
    if ff.m_videoStreamNumber = -1 then some ff
    else if ff.m_videoStreamNumber ≥ 0 then
      match ff.m_videoStream with
      | none => none
      | some stream =>
        some { ff with
               m_frameTotalCount := if stream.nb_frames > 0 then stream.nb_frames else -1
               m_duration :=
                 if stream.duration > 0 then stream.duration
                 else env.format_duration stream }
    else some ff
  match withVideo with
  | none => none
  | some ff1 =>
    let withAudio : Option FFmpegDecoder :=
      if ff1.m_audioStreamNumber = -1 then some ff1
      else if ff1.m_audioStreamNumber ≥ 0 ∧ ff1.m_videoStreamNumber = -1 then
        match ff1.m_audioStream with
        | none => none
        | some stream =>
          some { ff1 with
                 m_duration :=
                   if stream.duration > 0 then stream.duration
                   else env.format_duration stream }
      else some ff1
    match withAudio with
    | none => none
    | some ff2 =>
      some { ff2 with
             m_videoCodecContext :=
               if ff2.m_videoStreamNumber ≥ 0 then
                 (codecOf env.streams ff2.m_videoStreamNumber).isSome
               else ff2.m_videoCodecContext
             m_audioCodecContext :=
               if ff2.m_audioStreamNumber ≥ 0 then
                 (codecOf env.streams ff2.m_audioStreamNumber).isSome
               else ff2.m_audioCodecContext }

/-- `bool openDecoder(const PathType&, const std::string&, bool isFile)`. The
assertions before the `return false` statements are those of a release build (no
effect). -/
def openDecoder (ff : FFmpegDecoder) (isFile : Bool) (env : OpenEnv) : OpenResult :=
  let closed := ff.close
  if isFile && !env.file_valid then
    OpenResult.returned false closed.1 closed.2
  else if env.open_input_error ≠ 0 then
    OpenResult.returned false { closed.1 with m_formatContext := false } closed.2
  else if env.find_stream_info_ret < 0 then
    OpenResult.returned false { closed.1 with m_formatContext := false } closed.2
  else
    let scanned :=
      scanStreams env.streams 0
        { closed.1 with m_formatContext := true, m_videoStreamNumber := -1, m_audioStreamNumber := -1 }
    match takeCodecContexts scanned env with
    | none => OpenResult.nullDereference scanned closed.2
    | some ff1 => findVideoDecoder ff1 closed.2 env

end FFmpegDecoder

/-! ## Vocabulary of the statements -/

namespace VQueue

/-- The bounds of the ring buffer: occupancy in `[0, N]`, both cursors in `[0, N)`,
for `N` the length of `m_frames`. -/
def inBounds (q : VQueue) : Prop :=
  0 ≤ q.m_busy ∧ q.m_busy ≤ q.capacity ∧
  0 ≤ q.m_read_counter ∧ q.m_read_counter < q.capacity ∧
  0 ≤ q.m_write_counter ∧ q.m_write_counter < q.capacity

instance (q : VQueue) : Decidable q.inBounds := by
  unfold inBounds
  exact inferInstance

end VQueue

/-- The two operations on the ring buffer that are among the sources. -/
inductive RingOp where
  | clear
  | finishedDisplayingFrame
deriving DecidableEq, Repr

/-- Runs ring-buffer operations on an engine; `finishedDisplayingFrame` is called
only while `m_busy > 0`, otherwise the run is not one of those considered (`none`). -/
def ringRun : FFmpegDecoder → List RingOp → Option FFmpegDecoder
  | ff, [] => some ff
  | ff, RingOp.clear :: ops =>
    ringRun { ff with m_videoFramesQueue := ff.m_videoFramesQueue.clear } ops
  | ff, RingOp.finishedDisplayingFrame :: ops =>
    if ff.m_videoFramesQueue.m_busy > 0 then ringRun ff.finishedDisplayingFrame ops else none

/-- Both packet queues and the ring buffer are empty: the three tests of the
end-of-input branch of the Coordinator loop. -/
def FFmpegDecoder.drained (ff : FFmpegDecoder) : Prop :=
  ff.m_videoPacketsQueue.size = 0 ∧ ff.m_audioPacketsQueue.size = 0 ∧
  ff.m_videoFramesQueue.m_busy = 0

instance (ff : FFmpegDecoder) : Decidable ff.drained := by
  unfold FFmpegDecoder.drained
  exact inferInstance

/-- A decoder listener is attached and the engine is drained. -/
def FFmpegDecoder.quiescent (ff : FFmpegDecoder) : Prop :=
  ff.m_decoderListener = true ∧ ff.drained

instance (ff : FFmpegDecoder) : Decidable ff.quiescent := by
  unfold FFmpegDecoder.quiescent
  exact inferInstance

/-- An engine with a decoder listener attached, an occupancy-0 ring buffer of two
slots, empty packet queues, video stream 0, audio stream 1, a running session
(all four threads) and no seek pending. -/
def sampleEngine : FFmpegDecoder :=
  { m_frameListener := true
    m_decoderListener := true
    m_formatContext := true
    m_videoCodecContext := true
    m_audioCodecContext := true
    m_videoStreamNumber := 0
    m_audioStreamNumber := 1
    m_frameTotalCount := 100
    m_duration := 1000
    m_audioPTS := 0
    m_videoStartClock := 0
    m_pauseTimer := 0
    m_frameDisplayingRequested := false
    m_isPaused := false
    m_seekDuration := -1
    m_isAudioSeekingWhilePaused := false
    m_isVideoSeekingWhilePaused := false
    m_isPlaying := true
    m_videoPacketsQueue := FQueue.new
    m_audioPacketsQueue := FQueue.new
    m_videoFramesQueue :=
      VQueue.new [{ m_displayTime := 0, m_duration := 0, m_image := FPicture.new },
                  { m_displayTime := 0, m_duration := 0, m_image := FPicture.new }]
    m_mainParseThread := some 0
    m_mainVideoThread := some 0
    m_mainAudioThread := some 0
    m_mainDisplayThread := some 0 }

/-- A video packet of 10 bytes. -/
def sampleVideoPacket (n : Nat) : AVPacket :=
  { stream_index := 0, size := 10, pts := n, dts := n, data := n }

/-- An audio packet of 4 bytes. -/
def sampleAudioPacket (n : Nat) : AVPacket :=
  { stream_index := 1, size := 4, pts := n, dts := n, data := n }

/-- Sample values of the constants of `ffmpegdecoder.h`. -/
def sampleLimits : Limits :=
  { MAX_QUEUE_SIZE := 1000, MAX_VIDEO_FRAMES := 2, MAX_AUDIO_FRAMES := 2 }

/-- The sample engine with two frames published, both due at time 1, and the first
of them handed to the presentation layer (in flight). -/
def engineFrameInFlight : FFmpegDecoder :=
  { sampleEngine with
    m_frameDisplayingRequested := true
    m_videoFramesQueue :=
      { m_frames := [{ m_displayTime := 1, m_duration := 40, m_image := FPicture.new },
                     { m_displayTime := 1, m_duration := 80, m_image := FPicture.new }]
        m_write_counter := 0, m_read_counter := 0, m_busy := 2 } }

/-- The sample engine with two frames published, both due at time 1, none in
flight. -/
def engineTwoLateFrames : FFmpegDecoder :=
  { engineFrameInFlight with m_frameDisplayingRequested := false }

/-- The sample engine whose video queue holds two packets of 10 bytes: the count
bound of `sampleLimits` is reached, the byte bound is not. -/
def engineVideoCountFull : FFmpegDecoder :=
  { sampleEngine with
    m_videoPacketsQueue := (FQueue.new.enqueue (sampleVideoPacket 1)).enqueue (sampleVideoPacket 2) }

/-- An iteration of the Coordinator loop in which nothing is interrupted, no other
thread touches the engine and the container reports end of input. -/
def endOfInputEnv : IterationEnv :=
  { interruption_requested := false
    others := id
    seek := { seek_ret := 0, currentTime := 0, casTime := 0, pauseTime := 0 }
    read_ret := AVERROR_EOF
    packet := sampleVideoPacket 0
    wakeups := [] }

/-- The sample engine with a full ring buffer of two slots (read and write cursor at
1, occupancy 2), two packets in the video queue and a seek to 500 pending. -/
def engineSeekPending : FFmpegDecoder :=
  { engineVideoCountFull with
    m_seekDuration := 500
    m_videoFramesQueue :=
      { m_frames := [{ m_displayTime := 1, m_duration := 40, m_image := FPicture.new },
                     { m_displayTime := 1, m_duration := 80, m_image := FPicture.new }]
        m_write_counter := 1, m_read_counter := 1, m_busy := 2 } }

/-- A container that accepts the reposition, the clock reading 5. -/
def seekAccepted : SeekEnv := { seek_ret := 0, currentTime := 5, casTime := 5, pauseTime := 5 }

/-- A container that rejects the reposition, the clock reading 5. -/
def seekRejected : SeekEnv := { seek_ret := -1, currentTime := 5, casTime := 5, pauseTime := 5 }

/-- A playing session of a file with a video stream and no audio stream: the
Coordinator, video and display threads run, no audio thread was started. -/
def engineVideoOnly : FFmpegDecoder :=
  { sampleEngine with
    m_audioStreamNumber := -1
    m_audioCodecContext := false
    m_mainAudioThread := none }

/-- The sample engine with no decoder listener attached. -/
def engineNoListener : FFmpegDecoder :=
  { sampleEngine with m_decoderListener := false }

/-- Is the call a `volumeChanged` of the listener. -/
def Event.isVolumeChanged : Event → Bool
  | Event.volumeChanged _ => true
  | _ => false

/-- Is the call a `SetVolume` of the sink. -/
def Event.isSetVolume : Event → Bool
  | Event.SetVolume _ => true
  | _ => false

/-- The result of an `openDecoder` that returned; `none` when it did not. -/
def OpenResult.result : OpenResult → Option Bool
  | OpenResult.returned result _ _ => some result
  | OpenResult.nullDereference _ _ => none

/-- The engine an `openDecoder` leaves. -/
def OpenResult.engine : OpenResult → FFmpegDecoder
  | OpenResult.returned _ ff _ => ff
  | OpenResult.nullDereference ff _ => ff

/-- The session part of the state `resetVariables` produces: format context, codec
contexts and stream handles null, `m_duration` and `m_frameTotalCount` zero. -/
def FFmpegDecoder.sessionClosed (ff : FFmpegDecoder) : Prop :=
  ff.m_formatContext = false ∧ ff.m_videoCodecContext = false ∧
  ff.m_audioCodecContext = false ∧ ff.m_videoStream = none ∧ ff.m_audioStream = none ∧
  ff.m_duration = 0 ∧ ff.m_frameTotalCount = 0

instance (ff : FFmpegDecoder) : Decidable ff.sessionClosed := by
  unfold FFmpegDecoder.sessionClosed
  exact inferInstance

/-- The library objects `openDecoder` holds through guards are released: format
context and both codec contexts null. -/
def FFmpegDecoder.released (ff : FFmpegDecoder) : Prop :=
  ff.m_formatContext = false ∧ ff.m_videoCodecContext = false ∧
  ff.m_audioCodecContext = false

instance (ff : FFmpegDecoder) : Decidable ff.released := by
  unfold FFmpegDecoder.released
  exact inferInstance

/-- The engine `openDecoder` has after its stream scan. -/
def FFmpegDecoder.afterScan (ff : FFmpegDecoder) (env : OpenEnv) : FFmpegDecoder :=
  FFmpegDecoder.scanStreams env.streams 0
    { ff.close.1 with m_formatContext := true, m_videoStreamNumber := -1, m_audioStreamNumber := -1 }

/-- The failure paths of `openDecoder` before the stream scan: file not openable,
container not openable, no stream info. -/
def OpenEnv.failsEarly (env : OpenEnv) (isFile : Bool) : Prop :=
  (isFile = true ∧ env.file_valid = false) ∨ env.open_input_error ≠ 0 ∨
  env.find_stream_info_ret < 0

/-- The failure paths of `openDecoder` on the video stream `video`: decoder not
found, codec open failure, non-positive width or height. -/
def OpenEnv.videoFails (env : OpenEnv) (video : Int) : Prop :=
  0 ≤ video ∧ ∃ context, codecOf env.streams video = some context ∧
    (env.find_decoder context.codec_id = false ∨ env.video_open2_ret < 0 ∨
      context.width ≤ 0 ∨ context.height ≤ 0)

/-- The failure paths of `openDecoder` on the audio stream `audio`: decoder not
found, codec open failure, audio sink open failure. -/
def OpenEnv.audioFails (env : OpenEnv) (audio : Int) : Prop :=
  0 ≤ audio ∧ ∃ context, codecOf env.streams audio = some context ∧
    (env.find_decoder context.codec_id = false ∨ env.audio_open2_ret < 0 ∨
      env.audio_open = false)

/-- Following the claim's words: the smallest index, counted from `i`, of a stream
of the given type, or -1 if there is none. -/
def firstStreamOfType (codec_type : Int) : List AVStream → Nat → Int
  | [], _ => -1
  | stream :: rest, i =>
    if stream.codec.codec_type = codec_type then (i : Int)
    else firstStreamOfType codec_type rest (i + 1)

/-- A video stream of 100 frames and duration 500, codec id `codec_id`. -/
def sampleVideoStream (codec_id : Int) : AVStream :=
  { codec := { codec_type := AVMEDIA_TYPE_VIDEO, codec_id := codec_id, width := 640, height := 480 }
    nb_frames := 100, duration := 500, time_base := { num := 1, den := 25 } }

/-- An audio stream of duration 700, codec id `codec_id`. -/
def sampleAudioStream (codec_id : Int) : AVStream :=
  { codec := { codec_type := AVMEDIA_TYPE_AUDIO, codec_id := codec_id, width := 0, height := 0 }
    nb_frames := 0, duration := 700, time_base := { num := 1, den := 44100 } }

/-- A container with the given streams for which every library call succeeds and
every decoder is found. -/
def containerOf (streams : List AVStream) : OpenEnv :=
  { file_valid := true
    open_input_error := 0
    find_stream_info_ret := 0
    duration := 1000
    format_duration := fun _ => 0
    streams := streams
    find_decoder := fun _ => true
    video_open2_ret := 0
    audio_open2_ret := 0
    audio_open := true }

/-- A container with one video stream for which no decoder is found. -/
def containerWithoutDecoder : OpenEnv :=
  { containerOf [sampleVideoStream 7] with find_decoder := fun _ => false }

/-- A container whose file cannot be opened. -/
def containerNotOpenable : OpenEnv :=
  { containerOf [sampleVideoStream 7] with file_valid := false }

/-- The stream numbers are -1 or the index of a stream of `streams`, which the
matching stream handle points to. -/
def FFmpegDecoder.streamsSelected (ff : FFmpegDecoder) (streams : List AVStream) : Prop :=
  (ff.m_videoStreamNumber = -1 ∨
    (0 ≤ ff.m_videoStreamNumber ∧
      ∃ stream, streams[ff.m_videoStreamNumber.toNat]? = some stream ∧
        ff.m_videoStream = some stream)) ∧
  (ff.m_audioStreamNumber = -1 ∨
    (0 ≤ ff.m_audioStreamNumber ∧
      ∃ stream, streams[ff.m_audioStreamNumber.toNat]? = some stream ∧
        ff.m_audioStream = some stream))

/-- No decoder is found for the video stream `video`. -/
def OpenEnv.videoDecoderMissing (env : OpenEnv) (video : Int) : Prop :=
  0 ≤ video ∧ ∃ context, codecOf env.streams video = some context ∧
    env.find_decoder context.codec_id = false

/-- No decoder is found for the audio stream `audio`. -/
def OpenEnv.audioDecoderMissing (env : OpenEnv) (audio : Int) : Prop :=
  0 ≤ audio ∧ ∃ context, codecOf env.streams audio = some context ∧
    env.find_decoder context.codec_id = false

/-- The codec of the video stream `video` cannot be opened, or opens without a
positive width and height. -/
def OpenEnv.videoOpenFails (env : OpenEnv) (video : Int) : Prop :=
  0 ≤ video ∧ ∃ context, codecOf env.streams video = some context ∧
    (env.video_open2_ret < 0 ∨ context.width ≤ 0 ∨ context.height ≤ 0)

/-- The codec of the audio stream `audio` or the audio sink cannot be opened. -/
def OpenEnv.audioOpenFails (env : OpenEnv) (audio : Int) : Prop :=
  0 ≤ audio ∧ (env.audio_open2_ret < 0 ∨ env.audio_open = false)

/-- The sample engine, playing, with the clock offset `1700000000 + 2 ^ (-22)`
(a `double`: 53 significant bits). -/
def engineClockTie : FFmpegDecoder :=
  { sampleEngine with m_videoStartClock := 7130316800000001 / 4194304 }

/-! ## Theorems -/

/-! ### `double` rounding -/

/-- The unit in the last place is positive. -/
theorem ulp_pos (x : ℚ) : 0 < ulp x := by
  unfold ulp
  positivity

/-- Rounding to the nearest integer moves a value by at most one half. -/
theorem roundHalfEven_error (x : ℚ) : |((roundHalfEven x : Int) : ℚ) - x| ≤ 1 / 2 := by
  have h0 := Int.floor_le x
  have h1 := Int.lt_floor_add_one x
  unfold roundHalfEven
  split_ifs with ha hb hc
  · rw [abs_le]; constructor <;> linarith
  · rw [abs_le]; push_cast; constructor <;> linarith
  · rw [abs_le]; constructor <;> linarith
  · rw [abs_le]; push_cast; constructor <;> linarith

/-- An integer rounds to itself. -/
theorem roundHalfEven_intCast (n : Int) : roundHalfEven (n : ℚ) = n := by
  unfold roundHalfEven
  rw [Int.floor_intCast]
  simp

/-- A value halfway above an even integer rounds down to it. -/
theorem roundHalfEven_tie_even (n : Int) (h : n % 2 = 0) :
    roundHalfEven ((n : ℚ) + 1 / 2) = n := by
  have hf : ⌊(n : ℚ) + 1 / 2⌋ = n := by
    rw [Int.floor_eq_iff]
    constructor <;> linarith
  unfold roundHalfEven
  rw [hf]
  simp [h]

/-- A `double` operation moves its exact result by at most half a unit in the last
place. -/
theorem roundDouble_error (x : ℚ) : |roundDouble x - x| ≤ ulp x / 2 := by
  have hu := ulp_pos x
  have h := roundHalfEven_error (x / ulp x)
  have hx : roundDouble x - x =
      (((roundHalfEven (x / ulp x) : Int) : ℚ) - x / ulp x) * ulp x := by
    unfold roundDouble
    field_simp
  rw [hx, abs_mul, abs_of_pos hu]
  calc |((roundHalfEven (x / ulp x) : Int) : ℚ) - x / ulp x| * ulp x
      ≤ 1 / 2 * ulp x := mul_le_mul_of_nonneg_right h hu.le
    _ = ulp x / 2 := by ring

/-- The binade of a value between two consecutive powers of two, not below the
least normal exponent. -/
theorem binade_of_bounds (x : ℚ) (e : Int) (he : -1022 ≤ e)
    (hlo : (2 : ℚ) ^ e ≤ |x|) (hhi : |x| < (2 : ℚ) ^ (e + 1)) : binade x = e := by
  have hpos : 0 < |x| := lt_of_lt_of_le (by positivity) hlo
  have h1 : e ≤ Int.log 2 |x| :=
    (Int.zpow_le_iff_le_log (by norm_num) hpos).mp (by exact_mod_cast hlo)
  have h2 : Int.log 2 |x| < e + 1 :=
    (Int.lt_zpow_iff_log_lt (by norm_num) hpos).mp (by exact_mod_cast hhi)
  unfold binade
  omega

/-- A multiple of the unit in the last place of its own binade is a `double`:
rounding leaves it unchanged. -/
theorem roundDouble_of_multiple (x : ℚ) (e n : Int) (he : -1022 ≤ e)
    (hlo : (2 : ℚ) ^ e ≤ |x|) (hhi : |x| < (2 : ℚ) ^ (e + 1))
    (hx : x = (n : ℚ) * 2 ^ (e - 52)) : roundDouble x = x := by
  have hb := binade_of_bounds x e he hlo hhi
  have hu : ulp x = 2 ^ (e - 52) := by rw [ulp, hb]
  have hq : x / ulp x = (n : ℚ) := by
    rw [hu]
    nth_rewrite 1 [hx]
    field_simp
  rw [roundDouble, hq, roundHalfEven_intCast, hu, ← hx]

/-- A value half a unit in the last place above an even multiple rounds down to
that multiple. -/
theorem roundDouble_of_tie_even (x : ℚ) (e n : Int) (he : -1022 ≤ e)
    (hlo : (2 : ℚ) ^ e ≤ |x|) (hhi : |x| < (2 : ℚ) ^ (e + 1))
    (heven : n % 2 = 0)
    (hx : x = ((n : ℚ) + 1 / 2) * 2 ^ (e - 52)) :
    roundDouble x = (n : ℚ) * 2 ^ (e - 52) := by
  have hb := binade_of_bounds x e he hlo hhi
  have hu : ulp x = 2 ^ (e - 52) := by rw [ulp, hb]
  have hq : x / ulp x = (n : ℚ) + 1 / 2 := by
    rw [hu]
    nth_rewrite 1 [hx]
    field_simp
    ring
  rw [roundDouble, hq, roundHalfEven_tie_even n heven, hu]

/-- The clock offset `1700000000 + 2 ^ (-22)` is a `double`. -/
theorem roundDouble_clock_offset :
    roundDouble (7130316800000001 / 4194304) = 7130316800000001 / 4194304 :=
  roundDouble_of_multiple (7130316800000001 / 4194304) 30 7130316800000001 (by norm_num)
    (by norm_num [abs_of_pos]) (by norm_num [abs_of_pos]) (by norm_num)

/-- The clock reading `1700000005` is a `double`. -/
theorem roundDouble_pause_reading : roundDouble 1700000005 = 1700000005 :=
  roundDouble_of_multiple 1700000005 30 7130316820971520 (by norm_num)
    (by norm_num [abs_of_pos]) (by norm_num [abs_of_pos]) (by norm_num)

/-- The clock reading `1700000010` is a `double`. -/
theorem roundDouble_resume_reading : roundDouble 1700000010 = 1700000010 :=
  roundDouble_of_multiple 1700000010 30 7130316841943040 (by norm_num)
    (by norm_num [abs_of_pos]) (by norm_num [abs_of_pos]) (by norm_num)

/-- The `double` sum of `1700000000 + 2 ^ (-22)` and `1700000010`: the exact sum
`3400000010 + 2 ^ (-22)` lies halfway between the `double`s `3400000010` and
`3400000010 + 2 ^ (-21)` and rounds to the even one. -/
theorem roundDouble_clock_sum :
    roundDouble (7130316800000001 / 4194304 + 1700000010) = 3400000010 := by
  have h := roundDouble_of_tie_even (7130316800000001 / 4194304 + 1700000010) 31
    7130316820971520 (by norm_num) (by norm_num [abs_of_pos]) (by norm_num [abs_of_pos])
    (by norm_num) (by norm_num)
  rw [h]
  norm_num

/-- The `double` difference `3400000010 - 1700000005` is exact. -/
theorem roundDouble_clock_difference :
    roundDouble (3400000010 - 1700000005) = 1700000005 := by
  have h := roundDouble_of_multiple (3400000010 - 1700000005) 30
    7130316820971520 (by norm_num) (by norm_num [abs_of_pos]) (by norm_num [abs_of_pos])
    (by norm_num)
  rw [h]
  norm_num

theorem wrapInt64_of_fits (x : Int) (h0 : 0 ≤ x) (h1 : x ≤ INT64_MAX) : wrapInt64 x = x := by
  unfold wrapInt64
  unfold INT64_MAX at h1
  omega

theorem sizeSum_nil : sizeSum [] = 0 := rfl

theorem sizeSum_cons (p : AVPacket) (l : List AVPacket) :
    sizeSum (p :: l) = p.size + sizeSum l := by
  simp [sizeSum]

theorem sizeSum_append (l₁ l₂ : List AVPacket) :
    sizeSum (l₁ ++ l₂) = sizeSum l₁ + sizeSum l₂ := by
  simp [sizeSum]

theorem sizeSum_nonneg (l : List AVPacket) (h : ∀ p ∈ l, 0 ≤ p.size) : 0 ≤ sizeSum l := by
  induction l with
  | nil => simp [sizeSum]
  | cons p l ih =>
    rw [sizeSum_cons]
    have h1 := h p (List.mem_cons_self p l)
    have h2 := ih (fun x hx => h x (List.mem_cons_of_mem p hx))
    omega

/-- A sequence that dequeues only from a non-empty queue runs to completion, and the
returned packets followed by the packets still held are the packets held at the
start followed by the enqueued ones. -/
theorem FQueue.run_order (ops : List QueueOp) :
    ∀ q : FQueue, dequeuesNonEmpty q.m_queue.length ops = true →
      ∃ q' outs, FQueue.run q ops = some (q', outs) ∧
        outs ++ q'.m_queue = q.m_queue ++ enqueued ops ∧ outs.length = dequeueCount ops := by
  induction ops with
  | nil =>
    intro q _
    exact ⟨q, [], rfl, by simp [enqueued], rfl⟩
  | cons op ops ih =>
    intro q h
    cases op with
    | enqueue p =>
      have h' : dequeuesNonEmpty (q.enqueue p).m_queue.length ops = true := by
        simpa [dequeuesNonEmpty, FQueue.enqueue] using h
      obtain ⟨q', outs, hrun, hord, hlen⟩ := ih (q.enqueue p) h'
      refine ⟨q', outs, ?_, ?_, ?_⟩
      · simpa [FQueue.run] using hrun
      · simpa [FQueue.enqueue, enqueued] using hord
      · simpa [dequeueCount] using hlen
    | dequeue =>
      cases hq : q.m_queue with
      | nil => simp [dequeuesNonEmpty, hq] at h
      | cons p rest =>
        have h' : dequeuesNonEmpty rest.length ops = true := by
          simpa [dequeuesNonEmpty, hq] using h
        obtain ⟨q', outs, hrun, hord, hlen⟩ :=
          ih { m_packetsSize := wrapInt64 (q.m_packetsSize - p.size), m_queue := rest } h'
        refine ⟨q', p :: outs, ?_, ?_, ?_⟩
        · simp [FQueue.run, FQueue.dequeue, hq, hrun]
        · simpa [enqueued] using hord
        · simpa [dequeueCount] using hlen

/-- The byte counter stays equal to the bytes held, as long as no addition
overflows an `int64_t`. -/
theorem FQueue.run_counter (ops : List QueueOp) :
    ∀ q : FQueue, (∀ p ∈ q.m_queue, 0 ≤ p.size) → (∀ p ∈ enqueued ops, 0 ≤ p.size) →
      sizeSum q.m_queue + sizeSum (enqueued ops) ≤ INT64_MAX →
      q.m_packetsSize = sizeSum q.m_queue →
      ∀ q' outs, FQueue.run q ops = some (q', outs) →
        q'.m_packetsSize = sizeSum q'.m_queue ∧ ∀ p ∈ q'.m_queue, 0 ≤ p.size := by
  induction ops with
  | nil =>
    intro q hq _ _ hc q' outs hrun
    simp [FQueue.run] at hrun
    obtain ⟨rfl, _⟩ := hrun
    exact ⟨hc, hq⟩
  | cons op ops ih =>
    intro q hq he hfit hc q' outs hrun
    cases op with
    | enqueue p =>
      have hp : 0 ≤ p.size := he p (by simp [enqueued])
      have he' : ∀ x ∈ enqueued ops, 0 ≤ x.size := fun x hx => he x (by simp [enqueued, hx])
      have hs0 := sizeSum_nonneg q.m_queue hq
      have hs1 := sizeSum_nonneg (enqueued ops) he'
      have hfit' : sizeSum q.m_queue + (p.size + sizeSum (enqueued ops)) ≤ INT64_MAX := by
        simpa [enqueued, sizeSum_cons] using hfit
      apply ih (q.enqueue p) _ he' _ _ q' outs (by simpa [FQueue.run] using hrun)
      · intro x hx
        simp only [FQueue.enqueue, List.mem_append, List.mem_singleton] at hx
        rcases hx with hx | hx
        · exact hq x hx
        · exact hx ▸ hp
      · simp only [FQueue.enqueue, sizeSum_append, sizeSum_cons, sizeSum_nil]
        omega
      · simp only [FQueue.enqueue, sizeSum_append, sizeSum_cons, sizeSum_nil]
        rw [hc, wrapInt64_of_fits _ (by omega) (by omega)]
        omega
    | dequeue =>
      cases hqq : q.m_queue with
      | nil => simp [FQueue.run, FQueue.dequeue, hqq] at hrun
      | cons p rest =>
        have hrest : ∀ x ∈ rest, 0 ≤ x.size := fun x hx => hq x (by simp [hqq, hx])
        have hp : 0 ≤ p.size := hq p (by simp [hqq])
        have hs0 := sizeSum_nonneg rest hrest
        have he' : ∀ x ∈ enqueued ops, 0 ≤ x.size := fun x hx => he x (by simpa [enqueued] using hx)
        have hs1 := sizeSum_nonneg (enqueued ops) he'
        have hfit' : p.size + sizeSum rest + sizeSum (enqueued ops) ≤ INT64_MAX := by
          simpa [enqueued, hqq, sizeSum_cons] using hfit
        simp only [FQueue.run, FQueue.dequeue, hqq] at hrun
        cases hr : FQueue.run
            { m_packetsSize := wrapInt64 (q.m_packetsSize - p.size), m_queue := rest } ops with
        | none => simp [hr] at hrun
        | some r =>
          obtain ⟨q'', outs'⟩ := r
          simp only [hr, Option.some.injEq, Prod.mk.injEq] at hrun
          obtain ⟨rfl, _⟩ := hrun
          apply ih { m_packetsSize := wrapInt64 (q.m_packetsSize - p.size), m_queue := rest }
            hrest he' _ _ q'' outs' hr
          · show sizeSum rest + sizeSum (enqueued ops) ≤ INT64_MAX
            omega
          · show wrapInt64 (q.m_packetsSize - p.size) = sizeSum rest
            rw [hc, hqq, sizeSum_cons, wrapInt64_of_fits _ (by omega) (by omega)]
            omega

/-- C1. For every sequence of `enqueue` / `dequeue` calls on a freshly constructed
`FQueue` that dequeues only from a non-empty queue, enqueues packets of non-negative
size and keeps the enqueued bytes within an `int64_t`, the sequence runs to
completion and `packetsSize()` equals the bytes enqueued minus the bytes dequeued,
equals the bytes currently held, and is not negative. -/
theorem FQueue.packetsSize_eq_enqueued_minus_dequeued (ops : List QueueOp)
    (hne : dequeuesNonEmpty 0 ops = true)
    (hsize : ∀ p ∈ enqueued ops, 0 ≤ p.size)
    (hfit : sizeSum (enqueued ops) ≤ INT64_MAX) :
    ∃ q outs, FQueue.run FQueue.new ops = some (q, outs) ∧
      q.packetsSize = sizeSum (enqueued ops) - sizeSum outs ∧
      q.packetsSize = sizeSum q.m_queue ∧
      0 ≤ q.packetsSize := by
  obtain ⟨q, outs, hrun, hord, _⟩ := FQueue.run_order ops FQueue.new hne
  have hcnt := FQueue.run_counter ops FQueue.new (by simp [FQueue.new]) hsize
    (by simpa [FQueue.new, sizeSum] using hfit) (by simp [FQueue.new, sizeSum]) q outs hrun
  have hsum : sizeSum outs + sizeSum q.m_queue = sizeSum (enqueued ops) := by
    rw [← sizeSum_append, hord]
    simp [FQueue.new]
  have hpos := sizeSum_nonneg q.m_queue hcnt.2
  refine ⟨q, outs, hrun, ?_, hcnt.1, ?_⟩
  · unfold FQueue.packetsSize
    rw [hcnt.1]
    omega
  · unfold FQueue.packetsSize
    rw [hcnt.1]
    exact hpos

/-- C2. Strict FIFO: for every interleaving of `enqueue` and `dequeue` calls on a
freshly constructed `FQueue` that dequeues only from a non-empty queue, every
`dequeue` call returns, and the k-th `dequeue` returns the k-th enqueued packet. -/
theorem FQueue.dequeue_order_is_enqueue_order (ops : List QueueOp)
    (hne : dequeuesNonEmpty 0 ops = true) :
    ∃ q outs, FQueue.run FQueue.new ops = some (q, outs) ∧
      outs.length = dequeueCount ops ∧
      outs.length ≤ (enqueued ops).length ∧
      ∀ k, k < outs.length → outs[k]? = (enqueued ops)[k]? := by
  obtain ⟨q, outs, hrun, hord, hlen⟩ := FQueue.run_order ops FQueue.new hne
  have hord' : outs ++ q.m_queue = enqueued ops := by simpa [FQueue.new] using hord
  refine ⟨q, outs, hrun, hlen, ?_, ?_⟩
  · rw [← hord']
    simp
  · intro k hk
    rw [← hord', List.getElem?_append_left hk]

/-- Witness of C1: two enqueues, a dequeue, an enqueue and a dequeue. -/
theorem FQueue.packetsSize_eq_enqueued_minus_dequeued_witness :
    ∃ q outs,
      FQueue.run FQueue.new
        [QueueOp.enqueue (sampleVideoPacket 1), QueueOp.enqueue (sampleVideoPacket 2),
         QueueOp.dequeue, QueueOp.enqueue (sampleAudioPacket 3), QueueOp.dequeue] = some (q, outs) ∧
      q.packetsSize =
        sizeSum (enqueued
          [QueueOp.enqueue (sampleVideoPacket 1), QueueOp.enqueue (sampleVideoPacket 2),
           QueueOp.dequeue, QueueOp.enqueue (sampleAudioPacket 3), QueueOp.dequeue]) - sizeSum outs ∧
      q.packetsSize = sizeSum q.m_queue ∧
      0 ≤ q.packetsSize :=
  FQueue.packetsSize_eq_enqueued_minus_dequeued
    [QueueOp.enqueue (sampleVideoPacket 1), QueueOp.enqueue (sampleVideoPacket 2),
     QueueOp.dequeue, QueueOp.enqueue (sampleAudioPacket 3), QueueOp.dequeue]
    (by decide) (by decide) (by decide)

/-- Witness of C2: two enqueues, a dequeue, an enqueue and a dequeue. -/
theorem FQueue.dequeue_order_is_enqueue_order_witness :
    ∃ q outs,
      FQueue.run FQueue.new
        [QueueOp.enqueue (sampleVideoPacket 1), QueueOp.enqueue (sampleVideoPacket 2),
         QueueOp.dequeue, QueueOp.enqueue (sampleAudioPacket 3), QueueOp.dequeue] = some (q, outs) ∧
      outs.length =
        dequeueCount
          [QueueOp.enqueue (sampleVideoPacket 1), QueueOp.enqueue (sampleVideoPacket 2),
           QueueOp.dequeue, QueueOp.enqueue (sampleAudioPacket 3), QueueOp.dequeue] ∧
      outs.length ≤
        (enqueued
          [QueueOp.enqueue (sampleVideoPacket 1), QueueOp.enqueue (sampleVideoPacket 2),
           QueueOp.dequeue, QueueOp.enqueue (sampleAudioPacket 3), QueueOp.dequeue]).length ∧
      ∀ k, k < outs.length → outs[k]? =
        (enqueued
          [QueueOp.enqueue (sampleVideoPacket 1), QueueOp.enqueue (sampleVideoPacket 2),
           QueueOp.dequeue, QueueOp.enqueue (sampleAudioPacket 3), QueueOp.dequeue])[k]? :=
  FQueue.dequeue_order_is_enqueue_order
    [QueueOp.enqueue (sampleVideoPacket 1), QueueOp.enqueue (sampleVideoPacket 2),
     QueueOp.dequeue, QueueOp.enqueue (sampleAudioPacket 3), QueueOp.dequeue]
    (by decide)

/-! ### The ring buffer -/

theorem wrapInt32_of_fits (x : Int) (h0 : 0 ≤ x) (h1 : x ≤ INT_MAX) : wrapInt32 x = x := by
  unfold wrapInt32
  unfold INT_MAX at h1
  omega

theorem toSizeT_of_fits (x : Int) (h0 : 0 ≤ x) (h1 : x ≤ INT_MAX) : toSizeT x = x := by
  unfold toSizeT
  unfold INT_MAX at h1
  omega

theorem toSizeT_nonneg (x : Int) : 0 ≤ toSizeT x := by
  unfold toSizeT
  omega

theorem VQueue.capacity_clear (q : VQueue) : q.clear.capacity = q.capacity := by
  simp [VQueue.clear, VQueue.capacity]

theorem VQueue.capacity_new (slots : List VideoFrame) :
    (VQueue.new slots).capacity = (slots.length : Int) := by
  simp [VQueue.new, VQueue.capacity]

theorem FFmpegDecoder.capacity_finishedDisplayingFrame (ff : FFmpegDecoder) :
    ff.finishedDisplayingFrame.m_videoFramesQueue.capacity = ff.m_videoFramesQueue.capacity := by
  simp [FFmpegDecoder.finishedDisplayingFrame, VQueue.capacity]

/-- The new read cursor lies in `[0, N)` whatever the old one was. -/
theorem FFmpegDecoder.read_counter_finishedDisplayingFrame (ff : FFmpegDecoder)
    (hpos : 0 < ff.m_videoFramesQueue.capacity) (hcap : ff.m_videoFramesQueue.capacity ≤ INT_MAX) :
    0 ≤ ff.finishedDisplayingFrame.m_videoFramesQueue.m_read_counter ∧
    ff.finishedDisplayingFrame.m_videoFramesQueue.m_read_counter < ff.m_videoFramesQueue.capacity := by
  have h0 : 0 ≤ toSizeT (ff.m_videoFramesQueue.m_read_counter + 1) % ff.m_videoFramesQueue.capacity :=
    Int.emod_nonneg _ (by omega)
  have h1 : toSizeT (ff.m_videoFramesQueue.m_read_counter + 1) % ff.m_videoFramesQueue.capacity <
      ff.m_videoFramesQueue.capacity := Int.emod_lt_of_pos _ hpos
  have hw := wrapInt32_of_fits _ h0 (by omega)
  simp only [FFmpegDecoder.finishedDisplayingFrame]
  rw [hw]
  exact ⟨h0, h1⟩

/-- Acknowledging a frame of a non-empty ring buffer keeps the bounds, from every
state within the bounds. -/
theorem FFmpegDecoder.inBounds_finishedDisplayingFrame (ff : FFmpegDecoder)
    (hcap : ff.m_videoFramesQueue.capacity ≤ INT_MAX)
    (hin : ff.m_videoFramesQueue.inBounds) (hbusy : ff.m_videoFramesQueue.m_busy > 0) :
    ff.finishedDisplayingFrame.m_videoFramesQueue.inBounds := by
  obtain ⟨hb0, hb1, hr0, hr1, hw0, hw1⟩ := hin
  have hr := ff.read_counter_finishedDisplayingFrame (by omega) hcap
  have hc := ff.capacity_finishedDisplayingFrame
  refine ⟨?_, ?_, ?_, ?_, ?_, ?_⟩
  · show 0 ≤ ff.m_videoFramesQueue.m_busy - 1
    omega
  · rw [hc]
    show ff.m_videoFramesQueue.m_busy - 1 ≤ ff.m_videoFramesQueue.capacity
    omega
  · exact hr.1
  · rw [hc]
    exact hr.2
  · exact hw0
  · rw [hc]
    exact hw1

/-- Every run of `clear` / `finishedDisplayingFrame` from a state within the bounds
ends within the bounds, with the same array length. -/
theorem ringRun_inBounds (ops : List RingOp) :
    ∀ ff ff' : FFmpegDecoder, 0 < ff.m_videoFramesQueue.capacity →
      ff.m_videoFramesQueue.capacity ≤ INT_MAX → ff.m_videoFramesQueue.inBounds →
      ringRun ff ops = some ff' →
      ff'.m_videoFramesQueue.inBounds ∧
        ff'.m_videoFramesQueue.capacity = ff.m_videoFramesQueue.capacity := by
  induction ops with
  | nil =>
    intro ff ff' _ _ hin hrun
    simp only [ringRun, Option.some.injEq] at hrun
    subst hrun
    exact ⟨hin, rfl⟩
  | cons op ops ih =>
    intro ff ff' hpos hcap hin hrun
    cases op with
    | clear =>
      simp only [ringRun] at hrun
      have hc : ff.m_videoFramesQueue.clear.capacity = ff.m_videoFramesQueue.capacity :=
        VQueue.capacity_clear _
      have hin' : ff.m_videoFramesQueue.clear.inBounds := by
        refine ⟨?_, ?_, ?_, ?_, ?_, ?_⟩ <;> first
          | (show (0 : Int) ≤ 0; omega)
          | (rw [hc]; show (0 : Int) ≤ ff.m_videoFramesQueue.capacity; omega)
          | (rw [hc]; show (0 : Int) < ff.m_videoFramesQueue.capacity; omega)
      have := ih { ff with m_videoFramesQueue := ff.m_videoFramesQueue.clear } ff'
        (by rw [hc]; exact hpos) (by rw [hc]; exact hcap) hin' hrun
      exact ⟨this.1, this.2.trans hc⟩
    | finishedDisplayingFrame =>
      simp only [ringRun] at hrun
      split at hrun
      · rename_i hbusy
        have hc := ff.capacity_finishedDisplayingFrame
        have := ih ff.finishedDisplayingFrame ff' (by rw [hc]; exact hpos) (by rw [hc]; exact hcap)
          (ff.inBounds_finishedDisplayingFrame hcap hin hbusy) hrun
        exact ⟨this.1, this.2.trans hc⟩
      · exact absurd hrun (by simp)

/-- The constructed ring buffer is within the bounds. -/
theorem VQueue.inBounds_new (slots : List VideoFrame) (hpos : 0 < slots.length) :
    (VQueue.new slots).inBounds := by
  have hpos' : (0 : Int) < (slots.length : Int) := by exact_mod_cast hpos
  refine ⟨?_, ?_, ?_, ?_, ?_, ?_⟩ <;> first
    | (show (0 : Int) ≤ 0; omega)
    | (rw [VQueue.capacity_new]; show (0 : Int) ≤ (slots.length : Int); omega)
    | (rw [VQueue.capacity_new]; show (0 : Int) < (slots.length : Int); omega)

/-- C3. Ring-buffer bounds invariant, for an array of `N` slots with `0 < N` and `N`
fitting an `int`. The constructed `VQueue` is within the bounds (`m_busy` in
`[0, N]`, both cursors in `[0, N)`), and from every engine state whose ring buffer
of `N` slots is within the bounds, at whatever occupancy and cursors, every run of
`VQueue::clear()` and of `finishedDisplayingFrame()` called while `m_busy > 0` ends
in a state within the bounds: each `finishedDisplayingFrame()` takes `m_busy` from
`(0, N]` to `[0, N)` and the read cursor to `(m_read_counter + 1) % N`, each
`clear()` resets the three to zero. -/
theorem ring_buffer_bounds (slots : List VideoFrame)
    (hpos : 0 < slots.length) (hcap : (slots.length : Int) ≤ INT_MAX) :
    (VQueue.new slots).capacity = (slots.length : Int) ∧
    (VQueue.new slots).inBounds ∧
    ∀ (ff ff' : FFmpegDecoder) (ops : List RingOp),
      ff.m_videoFramesQueue.capacity = (slots.length : Int) →
      ff.m_videoFramesQueue.inBounds →
      ringRun ff ops = some ff' →
      ff'.m_videoFramesQueue.capacity = (slots.length : Int) ∧
      0 ≤ ff'.m_videoFramesQueue.m_busy ∧
      ff'.m_videoFramesQueue.m_busy ≤ (slots.length : Int) ∧
      0 ≤ ff'.m_videoFramesQueue.m_read_counter ∧
      ff'.m_videoFramesQueue.m_read_counter < (slots.length : Int) ∧
      0 ≤ ff'.m_videoFramesQueue.m_write_counter ∧
      ff'.m_videoFramesQueue.m_write_counter < (slots.length : Int) := by
  have hpos' : (0 : Int) < (slots.length : Int) := by exact_mod_cast hpos
  refine ⟨VQueue.capacity_new slots, VQueue.inBounds_new slots hpos, ?_⟩
  intro ff ff' ops hc hin hrun
  have h := ringRun_inBounds ops ff ff' (by rw [hc]; exact hpos') (by rw [hc]; exact hcap) hin hrun
  have hc' : ff'.m_videoFramesQueue.capacity = (slots.length : Int) := h.2.trans hc
  obtain ⟨h1, h2, h3, h4, h5, h6⟩ := h.1
  rw [hc'] at h2 h4 h6
  exact ⟨hc', h1, h2, h3, h4, h5, h6⟩

/-- Witness of C3: a ring buffer of two slots, both occupied (`m_busy = 2`, cursors
at 0). `finishedDisplayingFrame()`, `finishedDisplayingFrame()`, `clear()` is a run
whose calls of `finishedDisplayingFrame()` find `m_busy > 0`; after the first call
`m_busy = 1` and the read cursor is 1, after the second `m_busy = 0` and the read
cursor is back at 0. -/
theorem ring_buffer_bounds_witness :
    engineTwoLateFrames.m_videoFramesQueue.m_busy = 2 ∧
    engineTwoLateFrames.finishedDisplayingFrame.m_videoFramesQueue.m_busy = 1 ∧
    engineTwoLateFrames.finishedDisplayingFrame.m_videoFramesQueue.m_read_counter = 1 ∧
    engineTwoLateFrames.finishedDisplayingFrame.finishedDisplayingFrame.m_videoFramesQueue.m_busy
      = 0 ∧
    engineTwoLateFrames.finishedDisplayingFrame.finishedDisplayingFrame.m_videoFramesQueue.m_read_counter
      = 0 ∧
    ringRun engineTwoLateFrames [RingOp.finishedDisplayingFrame] =
      some engineTwoLateFrames.finishedDisplayingFrame ∧
    (0 ≤ engineTwoLateFrames.finishedDisplayingFrame.m_videoFramesQueue.m_busy ∧
     engineTwoLateFrames.finishedDisplayingFrame.m_videoFramesQueue.m_busy ≤ 2 ∧
     0 ≤ engineTwoLateFrames.finishedDisplayingFrame.m_videoFramesQueue.m_read_counter ∧
     engineTwoLateFrames.finishedDisplayingFrame.m_videoFramesQueue.m_read_counter < 2 ∧
     0 ≤ engineTwoLateFrames.finishedDisplayingFrame.m_videoFramesQueue.m_write_counter ∧
     engineTwoLateFrames.finishedDisplayingFrame.m_videoFramesQueue.m_write_counter < 2) ∧
    ∃ ff', ringRun engineTwoLateFrames
        [RingOp.finishedDisplayingFrame, RingOp.finishedDisplayingFrame, RingOp.clear] =
          some ff' ∧
      0 ≤ ff'.m_videoFramesQueue.m_busy ∧ ff'.m_videoFramesQueue.m_busy ≤ 2 ∧
      0 ≤ ff'.m_videoFramesQueue.m_read_counter ∧ ff'.m_videoFramesQueue.m_read_counter < 2 ∧
      0 ≤ ff'.m_videoFramesQueue.m_write_counter ∧ ff'.m_videoFramesQueue.m_write_counter < 2 :=
  have hall := (ring_buffer_bounds engineTwoLateFrames.m_videoFramesQueue.m_frames
    (by decide) (by decide)).2.2
  have hin : engineTwoLateFrames.m_videoFramesQueue.inBounds := by
    unfold VQueue.inBounds
    decide
  ⟨by decide, by decide, by decide, by decide, by decide, by decide,
    (hall engineTwoLateFrames engineTwoLateFrames.finishedDisplayingFrame
      [RingOp.finishedDisplayingFrame] rfl hin (by decide)).2,
    ⟨{ engineTwoLateFrames.finishedDisplayingFrame.finishedDisplayingFrame with
        m_videoFramesQueue :=
          engineTwoLateFrames.finishedDisplayingFrame.finishedDisplayingFrame.m_videoFramesQueue.clear },
      by decide,
      (hall engineTwoLateFrames
        { engineTwoLateFrames.finishedDisplayingFrame.finishedDisplayingFrame with
          m_videoFramesQueue :=
            engineTwoLateFrames.finishedDisplayingFrame.finishedDisplayingFrame.m_videoFramesQueue.clear }
        [RingOp.finishedDisplayingFrame, RingOp.finishedDisplayingFrame, RingOp.clear]
        rfl hin (by decide)).2⟩⟩

/-! ### The display scheduler -/

theorem VQueue.frameAt_some (q : VQueue) (i : Int) (f : VideoFrame)
    (h : q.frameAt i = some f) : 0 ≤ i ∧ i < q.capacity := by
  unfold VQueue.frameAt at h
  split at h
  · rename_i h0
    obtain ⟨hlt, _⟩ := List.getElem?_eq_some_iff.mp h
    refine ⟨h0, ?_⟩
    unfold VQueue.capacity
    omega
  · exact absurd h (by simp)

/-- C4, as the source has it. Frame drop: in every state in which no frame is in
flight (`m_frameDisplayingRequested` is false, so the wait at the top of the loop
lets the thread through), `m_busy > 1` and the frame at the read cursor has
`m_displayTime < now` (the array length fitting an `int`), one iteration of
`DisplayRunnable` acknowledges the frame with no call of `updateFrame`,
`changedFramePosition` or `drawFrame`; afterwards `m_busy` is one less, the read
cursor has moved on by one modulo the array length and `m_frameDisplayingRequested`
is false. -/
theorem DisplayRunnable.frame_drop (ff : FFmpegDecoder) (now : ℚ) (clock : List ℚ)
    (frame : VideoFrame)
    (hflight : ff.m_frameDisplayingRequested = false)
    (hbusy : ff.m_videoFramesQueue.m_busy > 1)
    (hframe : ff.m_videoFramesQueue.frameAt ff.m_videoFramesQueue.m_read_counter = some frame)
    (hlate : frame.m_displayTime < now)
    (hcap : ff.m_videoFramesQueue.capacity ≤ INT_MAX) :
    ∃ ff', DisplayRunnable.iteration ff now clock = DisplayStep.done ff' [] ∧
      ff' = ff.finishedDisplayingFrame ∧
      ff'.m_videoFramesQueue.m_busy = ff.m_videoFramesQueue.m_busy - 1 ∧
      ff'.m_videoFramesQueue.m_read_counter =
        (ff.m_videoFramesQueue.m_read_counter + 1) % ff.m_videoFramesQueue.capacity ∧
      ff'.m_frameDisplayingRequested = false := by
  obtain ⟨hr0, hr1⟩ := VQueue.frameAt_some _ _ _ hframe
  refine ⟨ff.finishedDisplayingFrame, ?_, rfl, rfl, ?_, rfl⟩
  · have hb : ff.m_videoFramesQueue.m_busy ≠ 0 := by omega
    simp [DisplayRunnable.iteration, hflight, hb, hframe, hbusy, hlate]
  · have hs : toSizeT (ff.m_videoFramesQueue.m_read_counter + 1) =
        ff.m_videoFramesQueue.m_read_counter + 1 := toSizeT_of_fits _ (by omega) (by omega)
    have h0 : 0 ≤ (ff.m_videoFramesQueue.m_read_counter + 1) % ff.m_videoFramesQueue.capacity :=
      Int.emod_nonneg _ (by omega)
    have h1 : (ff.m_videoFramesQueue.m_read_counter + 1) % ff.m_videoFramesQueue.capacity <
        ff.m_videoFramesQueue.capacity := Int.emod_lt_of_pos _ (by omega)
    show wrapInt32 (toSizeT (ff.m_videoFramesQueue.m_read_counter + 1) %
        ff.m_videoFramesQueue.capacity) = _
    rw [hs, wrapInt32_of_fits _ h0 (by omega)]

/-- Witness of C4: two frames due at time 1, none in flight, the clock at 2. -/
theorem DisplayRunnable.frame_drop_witness :
    ∃ ff', DisplayRunnable.iteration engineTwoLateFrames 2 [] = DisplayStep.done ff' [] ∧
      ff' = engineTwoLateFrames.finishedDisplayingFrame ∧
      ff'.m_videoFramesQueue.m_busy = engineTwoLateFrames.m_videoFramesQueue.m_busy - 1 ∧
      ff'.m_videoFramesQueue.m_read_counter =
        (engineTwoLateFrames.m_videoFramesQueue.m_read_counter + 1) %
          engineTwoLateFrames.m_videoFramesQueue.capacity ∧
      ff'.m_frameDisplayingRequested = false :=
  DisplayRunnable.frame_drop engineTwoLateFrames 2 []
    { m_displayTime := 1, m_duration := 40, m_image := FPicture.new }
    rfl (by decide) rfl (by norm_num) (by decide)

/-- Counterexample to C4 as stated: two frames are held (`m_busy = 2`), the frame at
the read cursor was due at time 1 and the clock reads 2, but that frame is in flight
to the presentation layer; the iteration does not get past its wait and acknowledges
nothing. -/
theorem DisplayRunnable.frame_drop_blocked_while_in_flight :
    engineFrameInFlight.m_videoFramesQueue.m_busy > 1 ∧
    (∃ frame, engineFrameInFlight.m_videoFramesQueue.frameAt
        engineFrameInFlight.m_videoFramesQueue.m_read_counter = some frame ∧
      frame.m_displayTime < 2) ∧
    DisplayRunnable.iteration engineFrameInFlight 2 [] = DisplayStep.blocked ∧
    ¬ ∃ ff', DisplayRunnable.iteration engineFrameInFlight 2 [] = DisplayStep.done ff' [] := by
  refine ⟨by decide, ⟨{ m_displayTime := 1, m_duration := 40, m_image := FPicture.new }, rfl,
    by norm_num⟩, rfl, ?_⟩
  rintro ⟨ff', h⟩
  have hb : DisplayRunnable.iteration engineFrameInFlight 2 [] = DisplayStep.blocked := rfl
  rw [hb] at h
  exact DisplayStep.noConfusion h

/-! ### `dispatchPacket` -/

theorem ParseRunnable.videoWait_below (cfg : Limits) (packet : AVPacket) (ff : FFmpegDecoder)
    (wakeups : List FFmpegDecoder)
    (h : ¬ (ff.m_videoPacketsQueue.packetsSize ≥ cfg.MAX_QUEUE_SIZE ∨
      ff.m_videoPacketsQueue.size ≥ cfg.MAX_VIDEO_FRAMES)) :
    ParseRunnable.videoWait cfg packet ff wakeups =
      DispatchOutcome.inserted
        { ff with m_videoPacketsQueue := ff.m_videoPacketsQueue.enqueue packet } := by
  cases wakeups <;> simp only [ParseRunnable.videoWait, if_neg h]

theorem ParseRunnable.audioWait_below (cfg : Limits) (packet : AVPacket) (ff : FFmpegDecoder)
    (wakeups : List FFmpegDecoder)
    (h : ¬ (ff.m_audioPacketsQueue.packetsSize ≥ cfg.MAX_QUEUE_SIZE ∨
      ff.m_audioPacketsQueue.size ≥ cfg.MAX_AUDIO_FRAMES)) :
    ParseRunnable.audioWait cfg packet ff wakeups =
      DispatchOutcome.inserted
        { ff with m_audioPacketsQueue := ff.m_audioPacketsQueue.enqueue packet } := by
  cases wakeups <;> simp only [ParseRunnable.audioWait, if_neg h]

/-- A caller of the video wait loop that finds a seek pending while a bound is
reached returns through the guard, in the state it found. -/
theorem ParseRunnable.videoWait_seek_pending (cfg : Limits) (packet : AVPacket)
    (ff : FFmpegDecoder) (wakeups : List FFmpegDecoder)
    (hfull : ff.m_videoPacketsQueue.packetsSize ≥ cfg.MAX_QUEUE_SIZE ∨
      ff.m_videoPacketsQueue.size ≥ cfg.MAX_VIDEO_FRAMES)
    (hseek : ff.m_seekDuration ≥ 0) :
    ParseRunnable.videoWait cfg packet ff wakeups = DispatchOutcome.freed ff := by
  cases wakeups <;> simp only [ParseRunnable.videoWait, if_pos hfull, if_pos hseek]

/-- A caller of the audio wait loop that finds a seek pending while a bound is
reached returns through the guard, in the state it found. -/
theorem ParseRunnable.audioWait_seek_pending (cfg : Limits) (packet : AVPacket)
    (ff : FFmpegDecoder) (wakeups : List FFmpegDecoder)
    (hfull : ff.m_audioPacketsQueue.packetsSize ≥ cfg.MAX_QUEUE_SIZE ∨
      ff.m_audioPacketsQueue.size ≥ cfg.MAX_AUDIO_FRAMES)
    (hseek : ff.m_seekDuration ≥ 0) :
    ParseRunnable.audioWait cfg packet ff wakeups = DispatchOutcome.freed ff := by
  cases wakeups <;> simp only [ParseRunnable.audioWait, if_pos hfull, if_pos hseek]

/-- C5, as the source has it. Backpressure: with no seek pending,
`dispatchPacket` keeps the caller blocked for a video (respectively audio) packet
exactly while at least one bound is reached, the byte size `>= MAX_QUEUE_SIZE` or the
packet count `>= MAX_VIDEO_FRAMES` (respectively `MAX_AUDIO_FRAMES`), taking the
decision again at every wake-up; the packet is inserted without waiting exactly when
both are below their bounds. -/
theorem ParseRunnable.dispatchPacket_backpressure (cfg : Limits) (ff : FFmpegDecoder)
    (packet : AVPacket) (hseek : ff.m_seekDuration < 0) :
    (packet.stream_index = ff.m_videoStreamNumber →
      (ParseRunnable.dispatchPacket cfg ff [] packet = DispatchOutcome.waiting ↔
        (ff.m_videoPacketsQueue.packetsSize ≥ cfg.MAX_QUEUE_SIZE ∨
          ff.m_videoPacketsQueue.size ≥ cfg.MAX_VIDEO_FRAMES)) ∧
      ((ff.m_videoPacketsQueue.packetsSize ≥ cfg.MAX_QUEUE_SIZE ∨
          ff.m_videoPacketsQueue.size ≥ cfg.MAX_VIDEO_FRAMES) →
        ∀ next later, ParseRunnable.dispatchPacket cfg ff (next :: later) packet =
          ParseRunnable.videoWait cfg packet next later) ∧
      ((ff.m_videoPacketsQueue.packetsSize < cfg.MAX_QUEUE_SIZE ∧
          ff.m_videoPacketsQueue.size < cfg.MAX_VIDEO_FRAMES) ↔
        ∀ wakeups, ParseRunnable.dispatchPacket cfg ff wakeups packet =
          DispatchOutcome.inserted
            { ff with m_videoPacketsQueue := ff.m_videoPacketsQueue.enqueue packet })) ∧
    (packet.stream_index ≠ ff.m_videoStreamNumber →
      packet.stream_index = ff.m_audioStreamNumber →
      (ParseRunnable.dispatchPacket cfg ff [] packet = DispatchOutcome.waiting ↔
        (ff.m_audioPacketsQueue.packetsSize ≥ cfg.MAX_QUEUE_SIZE ∨
          ff.m_audioPacketsQueue.size ≥ cfg.MAX_AUDIO_FRAMES)) ∧
      ((ff.m_audioPacketsQueue.packetsSize ≥ cfg.MAX_QUEUE_SIZE ∨
          ff.m_audioPacketsQueue.size ≥ cfg.MAX_AUDIO_FRAMES) →
        ∀ next later, ParseRunnable.dispatchPacket cfg ff (next :: later) packet =
          ParseRunnable.audioWait cfg packet next later) ∧
      ((ff.m_audioPacketsQueue.packetsSize < cfg.MAX_QUEUE_SIZE ∧
          ff.m_audioPacketsQueue.size < cfg.MAX_AUDIO_FRAMES) ↔
        ∀ wakeups, ParseRunnable.dispatchPacket cfg ff wakeups packet =
          DispatchOutcome.inserted
            { ff with m_audioPacketsQueue := ff.m_audioPacketsQueue.enqueue packet })) := by
  have hns : ¬ ff.m_seekDuration ≥ 0 := by omega
  constructor
  · intro hv
    have hd : ∀ w, ParseRunnable.dispatchPacket cfg ff w packet =
        ParseRunnable.videoWait cfg packet ff w := by
      intro w
      simp only [ParseRunnable.dispatchPacket, if_neg hns, if_pos hv]
    refine ⟨?_, ?_, ?_⟩
    · rw [hd]
      by_cases hfull : ff.m_videoPacketsQueue.packetsSize ≥ cfg.MAX_QUEUE_SIZE ∨
          ff.m_videoPacketsQueue.size ≥ cfg.MAX_VIDEO_FRAMES
      · simp only [ParseRunnable.videoWait, if_pos hfull, if_neg hns]
        exact ⟨fun _ => hfull, fun _ => trivial⟩
      · simp only [ParseRunnable.videoWait, if_neg hfull]
        exact ⟨fun h => DispatchOutcome.noConfusion h, fun h => absurd h hfull⟩
    · intro hfull next later
      rw [hd]
      simp only [ParseRunnable.videoWait, if_pos hfull, if_neg hns]
    · constructor
      · intro hbelow wakeups
        have hfull : ¬ (ff.m_videoPacketsQueue.packetsSize ≥ cfg.MAX_QUEUE_SIZE ∨
            ff.m_videoPacketsQueue.size ≥ cfg.MAX_VIDEO_FRAMES) := by omega
        rw [hd]
        exact ParseRunnable.videoWait_below cfg packet ff wakeups hfull
      · intro hall
        by_contra hnot
        have hfull : ff.m_videoPacketsQueue.packetsSize ≥ cfg.MAX_QUEUE_SIZE ∨
            ff.m_videoPacketsQueue.size ≥ cfg.MAX_VIDEO_FRAMES := by omega
        have h := hall []
        rw [hd] at h
        simp only [ParseRunnable.videoWait, if_pos hfull, if_neg hns] at h
        exact DispatchOutcome.noConfusion h
  · intro hnv ha
    have hd : ∀ w, ParseRunnable.dispatchPacket cfg ff w packet =
        ParseRunnable.audioWait cfg packet ff w := by
      intro w
      simp only [ParseRunnable.dispatchPacket, if_neg hns, if_neg hnv, if_pos ha]
    refine ⟨?_, ?_, ?_⟩
    · rw [hd]
      by_cases hfull : ff.m_audioPacketsQueue.packetsSize ≥ cfg.MAX_QUEUE_SIZE ∨
          ff.m_audioPacketsQueue.size ≥ cfg.MAX_AUDIO_FRAMES
      · simp only [ParseRunnable.audioWait, if_pos hfull, if_neg hns]
        exact ⟨fun _ => hfull, fun _ => trivial⟩
      · simp only [ParseRunnable.audioWait, if_neg hfull]
        exact ⟨fun h => DispatchOutcome.noConfusion h, fun h => absurd h hfull⟩
    · intro hfull next later
      rw [hd]
      simp only [ParseRunnable.audioWait, if_pos hfull, if_neg hns]
    · constructor
      · intro hbelow wakeups
        have hfull : ¬ (ff.m_audioPacketsQueue.packetsSize ≥ cfg.MAX_QUEUE_SIZE ∨
            ff.m_audioPacketsQueue.size ≥ cfg.MAX_AUDIO_FRAMES) := by omega
        rw [hd]
        exact ParseRunnable.audioWait_below cfg packet ff wakeups hfull
      · intro hall
        by_contra hnot
        have hfull : ff.m_audioPacketsQueue.packetsSize ≥ cfg.MAX_QUEUE_SIZE ∨
            ff.m_audioPacketsQueue.size ≥ cfg.MAX_AUDIO_FRAMES := by omega
        have h := hall []
        rw [hd] at h
        simp only [ParseRunnable.audioWait, if_pos hfull, if_neg hns] at h
        exact DispatchOutcome.noConfusion h

/-- Witness of C5: the sample engine, both bounds of the video queue not reached. -/
theorem ParseRunnable.dispatchPacket_backpressure_witness :
    sampleEngine.m_seekDuration < 0 ∧
    ∀ wakeups, ParseRunnable.dispatchPacket sampleLimits sampleEngine wakeups (sampleVideoPacket 3) =
      DispatchOutcome.inserted
        { sampleEngine with
          m_videoPacketsQueue := sampleEngine.m_videoPacketsQueue.enqueue (sampleVideoPacket 3) } :=
  ⟨by decide,
   ((ParseRunnable.dispatchPacket_backpressure sampleLimits sampleEngine (sampleVideoPacket 3)
      (by decide)).1 rfl).2.2.mp ⟨by decide, by decide⟩⟩

/-- Counterexample to C5 as stated: no seek is pending, the video queue holds 2
packets (`MAX_VIDEO_FRAMES = 2`) of 20 bytes in all (`MAX_QUEUE_SIZE = 1000`), so
only one of the two bounds is reached; the caller is blocked all the same. -/
theorem ParseRunnable.dispatchPacket_blocks_on_one_bound :
    engineVideoCountFull.m_seekDuration < 0 ∧
    (sampleVideoPacket 3).stream_index = engineVideoCountFull.m_videoStreamNumber ∧
    engineVideoCountFull.m_videoPacketsQueue.size ≥ sampleLimits.MAX_VIDEO_FRAMES ∧
    engineVideoCountFull.m_videoPacketsQueue.packetsSize < sampleLimits.MAX_QUEUE_SIZE ∧
    ParseRunnable.dispatchPacket sampleLimits engineVideoCountFull [] (sampleVideoPacket 3) =
      DispatchOutcome.waiting := by
  refine ⟨by decide, rfl, by decide, by decide, by decide⟩

/-- C6. For every engine state in which a seek is pending (`m_seekDuration >= 0`)
and every packet, `dispatchPacket` returns without inserting: the engine, and with it
the contents and byte counters of both packet queues, is unchanged, and the packet
is freed by the guard. -/
theorem ParseRunnable.dispatchPacket_seek_pending (cfg : Limits) (ff : FFmpegDecoder)
    (wakeups : List FFmpegDecoder) (packet : AVPacket) (hseek : ff.m_seekDuration ≥ 0) :
    ∃ ff', ParseRunnable.dispatchPacket cfg ff wakeups packet = DispatchOutcome.freed ff' ∧
      ff' = ff ∧
      ff'.m_videoPacketsQueue.m_queue = ff.m_videoPacketsQueue.m_queue ∧
      ff'.m_videoPacketsQueue.packetsSize = ff.m_videoPacketsQueue.packetsSize ∧
      ff'.m_audioPacketsQueue.m_queue = ff.m_audioPacketsQueue.m_queue ∧
      ff'.m_audioPacketsQueue.packetsSize = ff.m_audioPacketsQueue.packetsSize := by
  refine ⟨ff, ?_, rfl, rfl, rfl, rfl, rfl⟩
  simp only [ParseRunnable.dispatchPacket, if_pos hseek]

/-- Witness of C6: the sample engine with a seek to 500 pending. -/
theorem ParseRunnable.dispatchPacket_seek_pending_witness :
    ∃ ff', ParseRunnable.dispatchPacket sampleLimits { sampleEngine with m_seekDuration := 500 } []
        (sampleVideoPacket 3) = DispatchOutcome.freed ff' ∧
      ff' = { sampleEngine with m_seekDuration := 500 } ∧
      ff'.m_videoPacketsQueue.m_queue = sampleEngine.m_videoPacketsQueue.m_queue ∧
      ff'.m_videoPacketsQueue.packetsSize = sampleEngine.m_videoPacketsQueue.packetsSize ∧
      ff'.m_audioPacketsQueue.m_queue = sampleEngine.m_audioPacketsQueue.m_queue ∧
      ff'.m_audioPacketsQueue.packetsSize = sampleEngine.m_audioPacketsQueue.packetsSize :=
  ParseRunnable.dispatchPacket_seek_pending sampleLimits { sampleEngine with m_seekDuration := 500 } []
    (sampleVideoPacket 3) (by decide)

/-- C7. Routing by stream id: with no seek pending, a packet of the video stream
whose queue is below both bounds is appended to the video queue and the audio queue
is unchanged; a packet of the audio stream (which is not the video stream) whose
queue is below both bounds is appended to the audio queue and the video queue is
unchanged; a packet of any other stream leaves the engine unchanged and is freed. -/
theorem ParseRunnable.dispatchPacket_routes (cfg : Limits) (ff : FFmpegDecoder)
    (wakeups : List FFmpegDecoder) (packet : AVPacket) (hseek : ff.m_seekDuration < 0) :
    (packet.stream_index = ff.m_videoStreamNumber →
      ff.m_videoPacketsQueue.packetsSize < cfg.MAX_QUEUE_SIZE →
      ff.m_videoPacketsQueue.size < cfg.MAX_VIDEO_FRAMES →
      ∃ ff', ParseRunnable.dispatchPacket cfg ff wakeups packet = DispatchOutcome.inserted ff' ∧
        ff' = { ff with m_videoPacketsQueue := ff.m_videoPacketsQueue.enqueue packet } ∧
        ff'.m_videoPacketsQueue.m_queue = ff.m_videoPacketsQueue.m_queue ++ [packet] ∧
        ff'.m_audioPacketsQueue = ff.m_audioPacketsQueue) ∧
    (packet.stream_index ≠ ff.m_videoStreamNumber →
      packet.stream_index = ff.m_audioStreamNumber →
      ff.m_audioPacketsQueue.packetsSize < cfg.MAX_QUEUE_SIZE →
      ff.m_audioPacketsQueue.size < cfg.MAX_AUDIO_FRAMES →
      ∃ ff', ParseRunnable.dispatchPacket cfg ff wakeups packet = DispatchOutcome.inserted ff' ∧
        ff' = { ff with m_audioPacketsQueue := ff.m_audioPacketsQueue.enqueue packet } ∧
        ff'.m_audioPacketsQueue.m_queue = ff.m_audioPacketsQueue.m_queue ++ [packet] ∧
        ff'.m_videoPacketsQueue = ff.m_videoPacketsQueue) ∧
    (packet.stream_index ≠ ff.m_videoStreamNumber →
      packet.stream_index ≠ ff.m_audioStreamNumber →
      ParseRunnable.dispatchPacket cfg ff wakeups packet = DispatchOutcome.freed ff) := by
  have hns : ¬ ff.m_seekDuration ≥ 0 := by omega
  refine ⟨?_, ?_, ?_⟩
  · intro hv hbytes hcount
    refine ⟨_, ?_, rfl, rfl, rfl⟩
    simp only [ParseRunnable.dispatchPacket, if_neg hns, if_pos hv]
    exact ParseRunnable.videoWait_below cfg packet ff wakeups (by omega)
  · intro hnv ha hbytes hcount
    refine ⟨_, ?_, rfl, rfl, rfl⟩
    simp only [ParseRunnable.dispatchPacket, if_neg hns, if_neg hnv, if_pos ha]
    exact ParseRunnable.audioWait_below cfg packet ff wakeups (by omega)
  · intro hnv hna
    simp only [ParseRunnable.dispatchPacket, if_neg hns, if_neg hnv, if_neg hna]

/-- Witness of C7: an audio packet dispatched on the sample engine. -/
theorem ParseRunnable.dispatchPacket_routes_witness :
    sampleEngine.m_seekDuration < 0 ∧
    ∃ ff', ParseRunnable.dispatchPacket sampleLimits sampleEngine [] (sampleAudioPacket 7) =
        DispatchOutcome.inserted ff' ∧
      ff' = { sampleEngine with
              m_audioPacketsQueue := sampleEngine.m_audioPacketsQueue.enqueue (sampleAudioPacket 7) } ∧
      ff'.m_audioPacketsQueue.m_queue = sampleEngine.m_audioPacketsQueue.m_queue ++ [sampleAudioPacket 7] ∧
      ff'.m_videoPacketsQueue = sampleEngine.m_videoPacketsQueue :=
  ⟨by decide,
   (ParseRunnable.dispatchPacket_routes sampleLimits sampleEngine [] (sampleAudioPacket 7)
      (by decide)).2.1 (by decide) rfl (by decide) (by decide)⟩

/-! ### The Coordinator loop -/

theorem ParseRunnable.sendSeekPacket_calls (ff : FFmpegDecoder) (env : SeekEnv) :
    Event.onEndOfStream ∉ (ParseRunnable.sendSeekPacket ff env).2 := by
  simp only [ParseRunnable.sendSeekPacket]
  split_ifs <;> simp

theorem ParseRunnable.sendSeekPacket_listener (ff : FFmpegDecoder) (env : SeekEnv) :
    (ParseRunnable.sendSeekPacket ff env).1.m_decoderListener = ff.m_decoderListener := by
  simp only [ParseRunnable.sendSeekPacket, FFmpegDecoder.seekWhilePaused]
  split_ifs <;> rfl

theorem ParseRunnable.sendSeekPacket_busy (ff : FFmpegDecoder) (env : SeekEnv) :
    (ParseRunnable.sendSeekPacket ff env).1.m_videoFramesQueue.m_busy =
      ff.m_videoFramesQueue.m_busy := by
  simp only [ParseRunnable.sendSeekPacket, FFmpegDecoder.seekWhilePaused]
  split_ifs <;> rfl

theorem ParseRunnable.sendSeekPacket_queues (ff : FFmpegDecoder) (env : SeekEnv)
    (hv : ff.m_videoPacketsQueue.size = 0) (ha : ff.m_audioPacketsQueue.size = 0) :
    (ParseRunnable.sendSeekPacket ff env).1.m_videoPacketsQueue.size = 0 ∧
    (ParseRunnable.sendSeekPacket ff env).1.m_audioPacketsQueue.size = 0 := by
  simp only [ParseRunnable.sendSeekPacket, FFmpegDecoder.seekWhilePaused]
  split_ifs <;> first
    | exact ⟨hv, ha⟩
    | exact ⟨rfl, rfl⟩

theorem ParseRunnable.mem_endOfInputCalls (ff : FFmpegDecoder) (eof : Bool)
    (h : Event.onEndOfStream ∈ ParseRunnable.endOfInputCalls ff eof) :
    eof = true ∧ ff.drained := by
  unfold ParseRunnable.endOfInputCalls at h
  split at h
  · rename_i heof
    split at h
    · rename_i hq
      simp only [Bool.and_eq_true, decide_eq_true_eq] at hq
      exact ⟨heof, hq.1.1, hq.1.2, hq.2⟩
    · simp at h
  · simp at h

theorem AVERROR_EOF_neg : AVERROR_EOF < 0 := by decide

/-- An iteration whose read fails: the seek is served, `reader_eof` and the local
`eof` record whether the failure was `AVERROR_EOF`, and the end-of-input branch
runs with the old `eof`. -/
theorem ParseRunnable.iteration_of_failed_read (cfg : Limits) (pr : ParseRunnable) (eof : Bool)
    (env : IterationEnv) (hint : env.interruption_requested = false) (hret : env.read_ret < 0) :
    ParseRunnable.iteration cfg pr eof env =
      LoopStep.continues
        { m_ffmpeg := (ParseRunnable.sendSeekPacket (env.others pr.m_ffmpeg) env.seek).1
          reader_eof := decide (env.read_ret = AVERROR_EOF) }
        (decide (env.read_ret = AVERROR_EOF))
        ((ParseRunnable.sendSeekPacket (env.others pr.m_ffmpeg) env.seek).2 ++
          ParseRunnable.endOfInputCalls
            (ParseRunnable.sendSeekPacket (env.others pr.m_ffmpeg) env.seek).1 eof) := by
  have hnot : ¬ env.read_ret ≥ 0 := by omega
  simp [ParseRunnable.iteration, ParseRunnable.readFrame, hint, hnot]

/-- An iteration whose read succeeds: the seek is served, the packet is dispatched,
and the local `eof` is cleared; the end-of-input branch does not run. -/
theorem ParseRunnable.iteration_of_read (cfg : Limits) (pr : ParseRunnable) (eof : Bool)
    (env : IterationEnv) (hint : env.interruption_requested = false) (hret : env.read_ret ≥ 0) :
    ParseRunnable.iteration cfg pr eof env =
      match ParseRunnable.dispatchPacket cfg
          (ParseRunnable.sendSeekPacket (env.others pr.m_ffmpeg) env.seek).1 env.wakeups
          env.packet with
      | DispatchOutcome.waiting => LoopStep.stalled
      | DispatchOutcome.inserted ff =>
        LoopStep.continues { m_ffmpeg := ff, reader_eof := false } false
          (ParseRunnable.sendSeekPacket (env.others pr.m_ffmpeg) env.seek).2
      | DispatchOutcome.freed ff =>
        LoopStep.continues { m_ffmpeg := ff, reader_eof := false } false
          (ParseRunnable.sendSeekPacket (env.others pr.m_ffmpeg) env.seek).2 := by
  simp [ParseRunnable.iteration, ParseRunnable.readFrame, hint, hret]

/-- What a completed iteration tells: the new `eof` is set exactly when this read
returned `AVERROR_EOF`, and `onEndOfStream` was called only if this read failed, the
old `eof` was set, and the engine the iteration leaves is drained. -/
theorem ParseRunnable.iteration_continues (cfg : Limits) (pr pr' : ParseRunnable)
    (eof eof' : Bool) (env : IterationEnv) (events : List Event)
    (h : ParseRunnable.iteration cfg pr eof env = LoopStep.continues pr' eof' events) :
    (eof' = true ↔ env.read_ret = AVERROR_EOF) ∧
    (Event.onEndOfStream ∈ events →
      env.read_ret < 0 ∧ eof = true ∧ pr'.m_ffmpeg.drained) := by
  have hneg := AVERROR_EOF_neg
  by_cases hint : env.interruption_requested = true
  · simp [ParseRunnable.iteration, hint] at h
  · have hint' : env.interruption_requested = false := by simpa using hint
    by_cases hret : env.read_ret ≥ 0
    · have hne : env.read_ret ≠ AVERROR_EOF := by omega
      rw [ParseRunnable.iteration_of_read cfg pr eof env hint' hret] at h
      cases hd : ParseRunnable.dispatchPacket cfg
          (ParseRunnable.sendSeekPacket (env.others pr.m_ffmpeg) env.seek).1 env.wakeups
          env.packet with
      | waiting =>
        rw [hd] at h
        exact LoopStep.noConfusion h
      | inserted ff =>
        rw [hd] at h
        simp only [LoopStep.continues.injEq] at h
        obtain ⟨_, rfl, rfl⟩ := h
        exact ⟨by simp [hne], fun hm => absurd hm (ParseRunnable.sendSeekPacket_calls _ _)⟩
      | freed ff =>
        rw [hd] at h
        simp only [LoopStep.continues.injEq] at h
        obtain ⟨_, rfl, rfl⟩ := h
        exact ⟨by simp [hne], fun hm => absurd hm (ParseRunnable.sendSeekPacket_calls _ _)⟩
    · have hlt : env.read_ret < 0 := by omega
      rw [ParseRunnable.iteration_of_failed_read cfg pr eof env hint' hlt] at h
      simp only [LoopStep.continues.injEq] at h
      obtain ⟨rfl, rfl, rfl⟩ := h
      refine ⟨by simp, ?_⟩
      intro hm
      rw [List.mem_append] at hm
      rcases hm with hm | hm
      · exact absurd hm (ParseRunnable.sendSeekPacket_calls _ _)
      · have := ParseRunnable.mem_endOfInputCalls _ _ hm
        exact ⟨hlt, this.1, this.2⟩

theorem ParseRunnable.sendSeekPacket_quiescent (ff : FFmpegDecoder) (env : SeekEnv)
    (h : ff.quiescent) : (ParseRunnable.sendSeekPacket ff env).1.quiescent := by
  obtain ⟨hl, hv, ha, hb⟩ := h
  have hq := ParseRunnable.sendSeekPacket_queues ff env hv ha
  refine ⟨?_, hq.1, hq.2, ?_⟩
  · rw [ParseRunnable.sendSeekPacket_listener]
    exact hl
  · rw [ParseRunnable.sendSeekPacket_busy]
    exact hb

theorem ParseRunnable.endOfInputCalls_quiescent (ff : FFmpegDecoder) (eof : Bool)
    (h : ff.quiescent) :
    (ParseRunnable.endOfInputCalls ff eof).count Event.onEndOfStream = if eof then 1 else 0 := by
  obtain ⟨hl, hv, ha, hb⟩ := h
  cases eof <;> simp [ParseRunnable.endOfInputCalls, hl, hv, ha, hb]

theorem ParseRunnable.callsOf_cons (pr : ParseRunnable) (events : List Event)
    (trace : List (ParseRunnable × List Event)) :
    ParseRunnable.callsOf ((pr, events) :: trace) = events ++ ParseRunnable.callsOf trace := by
  simp [ParseRunnable.callsOf]

/-- A run of end-of-input iterations on a quiescent engine, entered with the local
flag `eof`: every iteration completes, and `onEndOfStream` is called in each of
them, except in the first when `eof` is not set. -/
theorem ParseRunnable.loopFrom_end_of_input (cfg : Limits) (envs : List IterationEnv) :
    ∀ (pr : ParseRunnable) (eof : Bool), pr.m_ffmpeg.quiescent →
      (∀ env ∈ envs, env.interruption_requested = false ∧ env.read_ret = AVERROR_EOF ∧
        ∀ ff : FFmpegDecoder, ff.quiescent → (env.others ff).quiescent) →
      (ParseRunnable.loopFrom cfg pr eof envs).length = envs.length ∧
      (ParseRunnable.callsOf (ParseRunnable.loopFrom cfg pr eof envs)).count Event.onEndOfStream =
        if eof then envs.length else envs.length - 1 := by
  induction envs with
  | nil =>
    intro pr eof _ _
    cases eof <;> simp [ParseRunnable.loopFrom, ParseRunnable.callsOf]
  | cons env envs ih =>
    intro pr eof hq henv
    obtain ⟨hint, hret, hothers⟩ := henv env (List.mem_cons_self env envs)
    have hneg := AVERROR_EOF_neg
    have hstep := ParseRunnable.iteration_of_failed_read cfg pr eof env hint (by omega)
    have hq1 : (ParseRunnable.sendSeekPacket (env.others pr.m_ffmpeg) env.seek).1.quiescent :=
      ParseRunnable.sendSeekPacket_quiescent _ _ (hothers _ hq)
    have hrest := ih
      { m_ffmpeg := (ParseRunnable.sendSeekPacket (env.others pr.m_ffmpeg) env.seek).1
        reader_eof := decide (env.read_ret = AVERROR_EOF) } true hq1
      (fun e he => henv e (List.mem_cons_of_mem env he))
    have hdec : decide (env.read_ret = AVERROR_EOF) = true := by simp [hret]
    rw [hdec] at hstep hrest
    have hc0 : (ParseRunnable.sendSeekPacket (env.others pr.m_ffmpeg) env.seek).2.count
        Event.onEndOfStream = 0 :=
      List.count_eq_zero.mpr (ParseRunnable.sendSeekPacket_calls _ _)
    have hc1 := ParseRunnable.endOfInputCalls_quiescent _ eof hq1
    simp only [ParseRunnable.loopFrom, hstep, List.length_cons, ParseRunnable.callsOf_cons,
      List.count_append, hc0, hc1, hrest.1, hrest.2, if_true]
    cases eof with
    | false => simp
    | true =>
      simp
      omega

/-- C8, as the source has it. In every run of the Coordinator loop in which no
interruption is requested, every read reports end of input, a listener is attached
and both packet queues and the ring buffer are and stay empty, every iteration
completes, `onEndOfStream` is not called in the first iteration and is called once in
each later one: after `n` iterations it has been called `n - 1` times. -/
theorem ParseRunnable.onEndOfStream_once_per_iteration (cfg : Limits) (pr : ParseRunnable)
    (envs : List IterationEnv)
    (hquiet : pr.m_ffmpeg.quiescent)
    (henv : ∀ env ∈ envs, env.interruption_requested = false ∧ env.read_ret = AVERROR_EOF ∧
      ∀ ff : FFmpegDecoder, ff.quiescent → (env.others ff).quiescent) :
    (ParseRunnable.loop cfg pr envs).length = envs.length ∧
    (ParseRunnable.callsOf (ParseRunnable.loop cfg pr envs)).count Event.onEndOfStream =
      envs.length - 1 := by
  have h := ParseRunnable.loopFrom_end_of_input cfg envs pr false hquiet henv
  simpa [ParseRunnable.loop] using h

/-- Witness of C8: two end-of-input iterations on the sample engine. -/
theorem ParseRunnable.onEndOfStream_once_per_iteration_witness :
    sampleEngine.quiescent ∧
    (ParseRunnable.loop sampleLimits { m_ffmpeg := sampleEngine, reader_eof := false }
      [endOfInputEnv, endOfInputEnv]).length = 2 ∧
    (ParseRunnable.callsOf
      (ParseRunnable.loop sampleLimits { m_ffmpeg := sampleEngine, reader_eof := false }
        [endOfInputEnv, endOfInputEnv])).count Event.onEndOfStream = 1 :=
  ⟨by decide,
   ParseRunnable.onEndOfStream_once_per_iteration sampleLimits
     { m_ffmpeg := sampleEngine, reader_eof := false } [endOfInputEnv, endOfInputEnv]
     (by decide)
     (by
       intro env henv
       have he : env = endOfInputEnv := by simpa using henv
       subst he
       exact ⟨rfl, rfl, fun ff h => h⟩)⟩

/-- Counterexample to C8 as stated: the engine is drained with a listener attached
and the container reports end of input in each of four iterations; `onEndOfStream`
is called three times, not once. -/
theorem ParseRunnable.onEndOfStream_called_repeatedly :
    sampleEngine.quiescent ∧
    endOfInputEnv.read_ret = AVERROR_EOF ∧
    (ParseRunnable.callsOf
      (ParseRunnable.loop sampleLimits { m_ffmpeg := sampleEngine, reader_eof := false }
        [endOfInputEnv, endOfInputEnv, endOfInputEnv, endOfInputEnv])).count
      Event.onEndOfStream = 3 := by
  refine ⟨by decide, rfl, by decide⟩

/-- In a run of the loop entered with the local flag `eof`, an iteration that calls
`onEndOfStream` has a failed read, follows an iteration whose read returned
`AVERROR_EOF` (or is the first, with `eof` set), and leaves a drained engine. -/
theorem ParseRunnable.loopFrom_onEndOfStream (cfg : Limits) (envs : List IterationEnv) :
    ∀ (pr : ParseRunnable) (eof : Bool) (i : Nat) (pr_i : ParseRunnable) (events : List Event),
      (ParseRunnable.loopFrom cfg pr eof envs)[i]? = some (pr_i, events) →
      Event.onEndOfStream ∈ events →
      (∃ env, envs[i]? = some env ∧ env.read_ret < 0) ∧
      (i = 0 → eof = true) ∧
      (∀ j, i = j + 1 → ∃ prev, envs[j]? = some prev ∧ prev.read_ret = AVERROR_EOF) ∧
      pr_i.m_ffmpeg.drained := by
  induction envs with
  | nil =>
    intro pr eof i pr_i events h _
    simp [ParseRunnable.loopFrom] at h
  | cons env envs ih =>
    intro pr eof i pr_i events h hcall
    cases hstep : ParseRunnable.iteration cfg pr eof env with
    | returned => simp [ParseRunnable.loopFrom, hstep] at h
    | stalled => simp [ParseRunnable.loopFrom, hstep] at h
    | continues pr1 eof1 ev1 =>
      have hit := ParseRunnable.iteration_continues cfg pr pr1 eof eof1 env ev1 hstep
      simp only [ParseRunnable.loopFrom, hstep] at h
      cases i with
      | zero =>
        simp only [List.getElem?_cons_zero, Option.some.injEq, Prod.mk.injEq] at h
        obtain ⟨rfl, rfl⟩ := h
        obtain ⟨hret, heof, hdr⟩ := hit.2 hcall
        exact ⟨⟨env, by simp, hret⟩, fun _ => heof, fun j hj => by omega, hdr⟩
      | succ k =>
        simp only [List.getElem?_cons_succ] at h
        obtain ⟨hread, hfirst, hprev, hdr⟩ := ih pr1 eof1 k pr_i events h hcall
        refine ⟨by simpa using hread, fun h0 => by omega, ?_, hdr⟩
        intro j hj
        have hjk : j = k := by omega
        subst hjk
        cases j with
        | zero => exact ⟨env, by simp, hit.1.mp (hfirst rfl)⟩
        | succ m =>
          obtain ⟨prev, hp, hpe⟩ := hprev m rfl
          exact ⟨prev, by simpa using hp, hpe⟩

/-- C9. End-of-stream drain: in a run of the Coordinator loop, an iteration calls
`onEndOfStream` only if its own read failed, the read of the iteration before it
returned `AVERROR_EOF` (so it is not the first iteration), and, in the engine state
its end-of-input branch tested, the video packet queue is empty, the audio packet
queue is empty and `m_busy` is 0. -/
theorem ParseRunnable.onEndOfStream_only_when_drained (cfg : Limits) (pr : ParseRunnable)
    (envs : List IterationEnv) (i : Nat) (pr_i : ParseRunnable) (events : List Event)
    (hiter : (ParseRunnable.loop cfg pr envs)[i]? = some (pr_i, events))
    (hcall : Event.onEndOfStream ∈ events) :
    (∃ env, envs[i]? = some env ∧ env.read_ret < 0) ∧
    (∃ j prev, i = j + 1 ∧ envs[j]? = some prev ∧ prev.read_ret = AVERROR_EOF) ∧
    pr_i.m_ffmpeg.m_videoPacketsQueue.size = 0 ∧
    pr_i.m_ffmpeg.m_audioPacketsQueue.size = 0 ∧
    pr_i.m_ffmpeg.m_videoFramesQueue.m_busy = 0 := by
  obtain ⟨hread, hfirst, hprev, hdr⟩ :=
    ParseRunnable.loopFrom_onEndOfStream cfg envs pr false i pr_i events hiter hcall
  refine ⟨hread, ?_, hdr.1, hdr.2.1, hdr.2.2⟩
  cases i with
  | zero => exact absurd (hfirst rfl) (by simp)
  | succ k =>
    obtain ⟨prev, hp, hpe⟩ := hprev k rfl
    exact ⟨k, prev, rfl, hp, hpe⟩

/-- Witness of C9: the second of two end-of-input iterations on the sample engine. -/
theorem ParseRunnable.onEndOfStream_only_when_drained_witness :
    (ParseRunnable.loop sampleLimits { m_ffmpeg := sampleEngine, reader_eof := false }
      [endOfInputEnv, endOfInputEnv])[1]? =
        some ({ m_ffmpeg := sampleEngine, reader_eof := true }, [Event.onEndOfStream]) ∧
    ((∃ env, [endOfInputEnv, endOfInputEnv][1]? = some env ∧ env.read_ret < 0) ∧
      (∃ j prev, 1 = j + 1 ∧ [endOfInputEnv, endOfInputEnv][j]? = some prev ∧
        prev.read_ret = AVERROR_EOF) ∧
      sampleEngine.m_videoPacketsQueue.size = 0 ∧
      sampleEngine.m_audioPacketsQueue.size = 0 ∧
      sampleEngine.m_videoFramesQueue.m_busy = 0) :=
  ⟨by decide,
   ParseRunnable.onEndOfStream_only_when_drained sampleLimits
     { m_ffmpeg := sampleEngine, reader_eof := false } [endOfInputEnv, endOfInputEnv] 1
     { m_ffmpeg := sampleEngine, reader_eof := true } [Event.onEndOfStream]
     (by decide) (by simp)⟩

/-! ### Seeking -/

theorem ParseRunnable.sendSeekPacket_clears (ff : FFmpegDecoder) (env : SeekEnv) :
    (ParseRunnable.sendSeekPacket ff env).1.m_seekDuration = -1 := by
  simp only [ParseRunnable.sendSeekPacket, FFmpegDecoder.seekWhilePaused]
  split_ifs <;> rfl

theorem ParseRunnable.sendSeekPacket_none_pending (ff : FFmpegDecoder) (env : SeekEnv)
    (h : ff.m_seekDuration < 0) :
    ParseRunnable.sendSeekPacket ff env = ({ ff with m_seekDuration := -1 }, []) := by
  simp only [ParseRunnable.sendSeekPacket, if_pos h]

theorem ParseRunnable.sendSeekPacket_repositions (ff : FFmpegDecoder) (env : SeekEnv)
    (h : 0 ≤ ff.m_seekDuration) :
    (ParseRunnable.sendSeekPacket ff env).2.filter Event.isReposition =
      [Event.avformat_seek_file ff.m_videoStreamNumber 0 ff.m_seekDuration ff.m_seekDuration] := by
  have hn : ¬ ff.m_seekDuration < 0 := by omega
  simp only [ParseRunnable.sendSeekPacket, if_neg hn]
  split_ifs <;> simp [Event.isReposition]

/-- C10. Seek coalescing: in a playing session (Coordinator thread present), after
`seekDuration(a)` and then `seekDuration(b)` with `b >= 0` (both return `true`), the
Coordinator's next `sendSeekPacket` repositions the container exactly once, to `b`
(for every `a`, so `a` is never executed), and leaves no seek pending
(`m_seekDuration == -1`); the `sendSeekPacket` after it makes no call at all. -/
theorem seek_requests_coalesce (ff : FFmpegDecoder) (a b : Int) (env env' : SeekEnv)
    (hplaying : ff.m_mainParseThread.isSome = true) (hb : 0 ≤ b) :
    (ff.seekDuration a).1 = true ∧
    ((ff.seekDuration a).2.seekDuration b).1 = true ∧
    (ParseRunnable.sendSeekPacket ((ff.seekDuration a).2.seekDuration b).2 env).2.filter
        Event.isReposition =
      [Event.avformat_seek_file ff.m_videoStreamNumber 0 b b] ∧
    (ParseRunnable.sendSeekPacket ((ff.seekDuration a).2.seekDuration b).2 env).1.m_seekDuration
      = -1 ∧
    (ParseRunnable.sendSeekPacket
      (ParseRunnable.sendSeekPacket ((ff.seekDuration a).2.seekDuration b).2 env).1 env').2
      = [] := by
  have hreq : ((ff.seekDuration a).2.seekDuration b).2 = { ff with m_seekDuration := b } := by
    simp [FFmpegDecoder.seekDuration, hplaying]
  have hclear := ParseRunnable.sendSeekPacket_clears { ff with m_seekDuration := b } env
  have htrue : ∀ (g : FFmpegDecoder) (d : Int), (g.seekDuration d).1 = true := by
    intro g d
    unfold FFmpegDecoder.seekDuration
    split <;> rfl
  refine ⟨htrue ff a, htrue _ b, ?_, ?_, ?_⟩
  · rw [hreq]
    exact ParseRunnable.sendSeekPacket_repositions { ff with m_seekDuration := b } env hb
  · rw [hreq]
    exact hclear
  · rw [hreq, ParseRunnable.sendSeekPacket_none_pending _ env' (by rw [hclear]; decide)]

/-- Witness of C10: seeks to 300 and then to 700 on the sample engine, served by a
container that accepts the reposition. -/
theorem seek_requests_coalesce_witness :
    sampleEngine.m_mainParseThread.isSome = true ∧
    (ParseRunnable.sendSeekPacket ((sampleEngine.seekDuration 300).2.seekDuration 700).2
        { seek_ret := 0, currentTime := 5, casTime := 5, pauseTime := 5 }).2.filter
        Event.isReposition =
      [Event.avformat_seek_file 0 0 700 700] ∧
    (ParseRunnable.sendSeekPacket
      (ParseRunnable.sendSeekPacket ((sampleEngine.seekDuration 300).2.seekDuration 700).2
        { seek_ret := 0, currentTime := 5, casTime := 5, pauseTime := 5 }).1
      { seek_ret := 0, currentTime := 6, casTime := 6, pauseTime := 6 }).2 = [] :=
  ⟨rfl,
   (seek_requests_coalesce sampleEngine 300 700
      { seek_ret := 0, currentTime := 5, casTime := 5, pauseTime := 5 }
      { seek_ret := 0, currentTime := 6, casTime := 6, pauseTime := 6 } rfl (by decide)).2.2.1,
   (seek_requests_coalesce sampleEngine 300 700
      { seek_ret := 0, currentTime := 5, casTime := 5, pauseTime := 5 }
      { seek_ret := 0, currentTime := 6, casTime := 6, pauseTime := 6 } rfl (by decide)).2.2.2.2⟩

/-! ### The seek protocol -/

/-- What `sendSeekPacket` does on a seek the container accepts. -/
theorem ParseRunnable.sendSeekPacket_accepted (ff : FFmpegDecoder) (env : SeekEnv)
    (hpending : 0 ≤ ff.m_seekDuration) (haccept : 0 ≤ env.seek_ret) :
    (ParseRunnable.sendSeekPacket ff env).1.m_videoPacketsQueue = ff.m_videoPacketsQueue.clear ∧
    (ParseRunnable.sendSeekPacket ff env).1.m_audioPacketsQueue = ff.m_audioPacketsQueue.clear ∧
    (ParseRunnable.sendSeekPacket ff env).1.m_videoFramesQueue =
      (if ff.m_mainVideoThread.isSome then ff.m_videoFramesQueue.setDisplayTime env.currentTime
       else ff.m_videoFramesQueue) := by
  have h1 : ¬ ff.m_seekDuration < 0 := by omega
  have h2 : ¬ env.seek_ret < 0 := by omega
  simp only [ParseRunnable.sendSeekPacket, FFmpegDecoder.seekWhilePaused, if_neg h1, if_neg h2]
  split_ifs <;> exact ⟨rfl, rfl, rfl⟩

/-- C11, as the source has it. After every successful seek executed by
`sendSeekPacket` (pending target `>= 0`, reposition accepted by the container), both
packet queues are empty with byte counter 0; the ring buffer is not cleared: its
occupancy `m_busy` and both cursors keep their values, its array keeps its length,
and, when a video worker thread exists, every slot has the current time as display
time. -/
theorem ParseRunnable.sendSeekPacket_success (ff : FFmpegDecoder) (env : SeekEnv)
    (hpending : 0 ≤ ff.m_seekDuration) (haccept : 0 ≤ env.seek_ret) :
    (ParseRunnable.sendSeekPacket ff env).1.m_videoPacketsQueue.m_queue = [] ∧
    (ParseRunnable.sendSeekPacket ff env).1.m_videoPacketsQueue.packetsSize = 0 ∧
    (ParseRunnable.sendSeekPacket ff env).1.m_audioPacketsQueue.m_queue = [] ∧
    (ParseRunnable.sendSeekPacket ff env).1.m_audioPacketsQueue.packetsSize = 0 ∧
    (ParseRunnable.sendSeekPacket ff env).1.m_videoFramesQueue.m_busy =
      ff.m_videoFramesQueue.m_busy ∧
    (ParseRunnable.sendSeekPacket ff env).1.m_videoFramesQueue.m_read_counter =
      ff.m_videoFramesQueue.m_read_counter ∧
    (ParseRunnable.sendSeekPacket ff env).1.m_videoFramesQueue.m_write_counter =
      ff.m_videoFramesQueue.m_write_counter ∧
    (ParseRunnable.sendSeekPacket ff env).1.m_videoFramesQueue.m_frames.length =
      ff.m_videoFramesQueue.m_frames.length ∧
    (ff.m_mainVideoThread.isSome = true →
      ∀ frame ∈ (ParseRunnable.sendSeekPacket ff env).1.m_videoFramesQueue.m_frames,
        frame.m_displayTime = env.currentTime) := by
  obtain ⟨hv, ha, hr⟩ := ParseRunnable.sendSeekPacket_accepted ff env hpending haccept
  rw [hv, ha, hr]
  refine ⟨rfl, rfl, rfl, rfl, ?_, ?_, ?_, ?_, ?_⟩
  · split <;> rfl
  · split <;> rfl
  · split <;> rfl
  · split
    · simp [VQueue.setDisplayTime]
    · rfl
  · intro hvideo frame hmem
    rw [if_pos hvideo] at hmem
    simp only [VQueue.setDisplayTime, List.mem_map] at hmem
    obtain ⟨f, _, rfl⟩ := hmem
    rfl

/-- Witness of C11: the seek to 500 pending on an engine with a full ring buffer and
two queued video packets, accepted by the container. -/
theorem ParseRunnable.sendSeekPacket_success_witness :
    (ParseRunnable.sendSeekPacket engineSeekPending seekAccepted).1.m_videoPacketsQueue.m_queue = [] ∧
    (ParseRunnable.sendSeekPacket engineSeekPending seekAccepted).1.m_videoFramesQueue.m_busy =
      engineSeekPending.m_videoFramesQueue.m_busy :=
  ⟨(ParseRunnable.sendSeekPacket_success engineSeekPending seekAccepted
      (by decide) (by decide)).1,
   (ParseRunnable.sendSeekPacket_success engineSeekPending seekAccepted
      (by decide) (by decide)).2.2.2.2.1⟩

/-- Counterexample to C11 as stated: a seek to 500 is pending, the container accepts
the reposition, the ring buffer holds two frames with both cursors at 1; after
`sendSeekPacket` the occupancy is still 2 and both cursors are still 1. -/
theorem ParseRunnable.sendSeekPacket_keeps_ring_buffer :
    0 ≤ engineSeekPending.m_seekDuration ∧
    0 ≤ seekAccepted.seek_ret ∧
    (ParseRunnable.sendSeekPacket engineSeekPending seekAccepted).1.m_videoFramesQueue.m_busy = 2 ∧
    (ParseRunnable.sendSeekPacket engineSeekPending seekAccepted).1.m_videoFramesQueue.m_read_counter
      = 1 ∧
    (ParseRunnable.sendSeekPacket engineSeekPending seekAccepted).1.m_videoFramesQueue.m_write_counter
      = 1 := by
  refine ⟨by decide, by decide, by decide, by decide, by decide⟩

/-- C12. Seek failure is dropped without side effects: for every engine state with a
pending seek target `>= 0`, if the container rejects the reposition, `sendSeekPacket`
changes nothing but the pending target, which becomes -1: both packet queues, the
ring buffer, `m_videoStartClock`, `m_pauseTimer`, `m_isPaused` and the worker
threads are as before, and the only call made is the rejected reposition. -/
theorem ParseRunnable.sendSeekPacket_rejected (ff : FFmpegDecoder) (env : SeekEnv)
    (hpending : 0 ≤ ff.m_seekDuration) (hreject : env.seek_ret < 0) :
    (ParseRunnable.sendSeekPacket ff env).1 = { ff with m_seekDuration := -1 } ∧
    (ParseRunnable.sendSeekPacket ff env).1.m_seekDuration = -1 ∧
    (ParseRunnable.sendSeekPacket ff env).1.m_videoPacketsQueue = ff.m_videoPacketsQueue ∧
    (ParseRunnable.sendSeekPacket ff env).1.m_audioPacketsQueue = ff.m_audioPacketsQueue ∧
    (ParseRunnable.sendSeekPacket ff env).1.m_videoFramesQueue = ff.m_videoFramesQueue ∧
    (ParseRunnable.sendSeekPacket ff env).1.m_videoStartClock = ff.m_videoStartClock ∧
    (ParseRunnable.sendSeekPacket ff env).1.m_pauseTimer = ff.m_pauseTimer ∧
    (ParseRunnable.sendSeekPacket ff env).1.m_isPaused = ff.m_isPaused ∧
    (ParseRunnable.sendSeekPacket ff env).1.m_mainVideoThread = ff.m_mainVideoThread ∧
    (ParseRunnable.sendSeekPacket ff env).1.m_mainAudioThread = ff.m_mainAudioThread ∧
    (ParseRunnable.sendSeekPacket ff env).2 =
      [Event.avformat_seek_file ff.m_videoStreamNumber 0 ff.m_seekDuration ff.m_seekDuration] := by
  have h1 : ¬ ff.m_seekDuration < 0 := by omega
  have h : ParseRunnable.sendSeekPacket ff env =
      ({ ff with m_seekDuration := -1 },
       [Event.avformat_seek_file ff.m_videoStreamNumber 0 ff.m_seekDuration ff.m_seekDuration]) := by
    simp only [ParseRunnable.sendSeekPacket, if_neg h1, if_pos hreject]
  rw [h]
  exact ⟨rfl, rfl, rfl, rfl, rfl, rfl, rfl, rfl, rfl, rfl, rfl⟩

/-- Witness of C12: the seek to 500 pending on an engine with a full ring buffer and
two queued video packets, rejected by the container. -/
theorem ParseRunnable.sendSeekPacket_rejected_witness :
    (ParseRunnable.sendSeekPacket engineSeekPending seekRejected).1 =
      { engineSeekPending with m_seekDuration := -1 } ∧
    (ParseRunnable.sendSeekPacket engineSeekPending seekRejected).2 =
      [Event.avformat_seek_file 0 0 500 500] :=
  ⟨(ParseRunnable.sendSeekPacket_rejected engineSeekPending seekRejected
      (by decide) (by decide)).1,
   (ParseRunnable.sendSeekPacket_rejected engineSeekPending seekRejected
      (by decide) (by decide)).2.2.2.2.2.2.2.2.2.2⟩

/-- C13. A seek never changes the Playing/Paused state: for every engine state and
whatever the container answers, `m_isPaused` is the same after `sendSeekPacket` as
before, and `seekWhilePaused` on its own leaves it unchanged too; a seek issued
while paused leaves the engine paused. -/
theorem ParseRunnable.sendSeekPacket_keeps_paused (ff : FFmpegDecoder) (env : SeekEnv)
    (casTime pauseTime : ℚ) :
    (ParseRunnable.sendSeekPacket ff env).1.m_isPaused = ff.m_isPaused ∧
    (ff.seekWhilePaused casTime pauseTime).m_isPaused = ff.m_isPaused := by
  constructor
  · simp only [ParseRunnable.sendSeekPacket, FFmpegDecoder.seekWhilePaused]
    split_ifs <;> rfl
  · simp only [FFmpegDecoder.seekWhilePaused]
    split_ifs <;> rfl

/-! ### Pause and resume -/

/-- With the Coordinator and both worker threads present, `pauseResume` returns
`true`, toggles `m_isPaused`, shifts the clock offset when resuming and stores the
clock reading when pausing. -/
theorem FFmpegDecoder.pauseResume_of_session (ff : FFmpegDecoder) (now : ℚ)
    (hparse : ff.m_mainParseThread.isSome = true)
    (haudio : ff.m_mainAudioThread.isSome = true)
    (hvideo : ff.m_mainVideoThread.isSome = true) :
    ff.pauseResume now =
      if ff.m_isPaused then
        (true, { ff with
                  m_videoStartClock :=
                    roundDouble (roundDouble (ff.m_videoStartClock + now) - ff.m_pauseTimer)
                  m_isPaused := false })
      else
        (true, { ff with m_isPaused := true, m_pauseTimer := now }) := by
  have h1 : ff.m_mainParseThread.isNone = false := by
    cases h : ff.m_mainParseThread <;> simp_all
  have h2 : ff.m_mainAudioThread.isNone = false := by
    cases h : ff.m_mainAudioThread <;> simp_all
  have h3 : ff.m_mainVideoThread.isNone = false := by
    cases h : ff.m_mainVideoThread <;> simp_all
  simp [FFmpegDecoder.pauseResume, h1, h2, h3]

/-- C14. `pauseResume` is an involution on the paused flag: for every engine state
with a playing session (Coordinator, audio and video worker threads present), two
calls of `pauseResume()` both return `true`, the state in between has the opposite
`m_isPaused`, and the state after the second has the original `m_isPaused`. -/
theorem FFmpegDecoder.pauseResume_twice (ff : FFmpegDecoder) (t0 t1 : ℚ)
    (hparse : ff.m_mainParseThread.isSome = true)
    (haudio : ff.m_mainAudioThread.isSome = true)
    (hvideo : ff.m_mainVideoThread.isSome = true) :
    (ff.pauseResume t0).1 = true ∧
    ((ff.pauseResume t0).2.pauseResume t1).1 = true ∧
    (ff.pauseResume t0).2.m_isPaused = !ff.m_isPaused ∧
    ((ff.pauseResume t0).2.pauseResume t1).2.m_isPaused = ff.m_isPaused := by
  have hfirst := ff.pauseResume_of_session t0 hparse haudio hvideo
  cases hp : ff.m_isPaused
  · rw [hp] at hfirst
    simp only [Bool.false_eq_true, if_false] at hfirst
    rw [hfirst]
    have hsecond := FFmpegDecoder.pauseResume_of_session
      { ff with m_isPaused := true, m_pauseTimer := t0 } t1 hparse haudio hvideo
    simp only [if_true] at hsecond
    rw [hsecond]
    exact ⟨rfl, rfl, rfl, rfl⟩
  · rw [hp] at hfirst
    simp only [if_true] at hfirst
    rw [hfirst]
    have hsecond := FFmpegDecoder.pauseResume_of_session
      { ff with
        m_videoStartClock :=
          roundDouble (roundDouble (ff.m_videoStartClock + t0) - ff.m_pauseTimer)
        m_isPaused := false } t1 hparse haudio hvideo
    simp only [Bool.false_eq_true, if_false] at hsecond
    rw [hsecond]
    exact ⟨rfl, rfl, rfl, rfl⟩

/-- Witness of C14: the sample engine, which is playing, paused at 10 and resumed
at 14. -/
theorem FFmpegDecoder.pauseResume_twice_witness :
    (sampleEngine.pauseResume 10).1 = true ∧
    ((sampleEngine.pauseResume 10).2.pauseResume 14).1 = true ∧
    (sampleEngine.pauseResume 10).2.m_isPaused = !sampleEngine.m_isPaused ∧
    ((sampleEngine.pauseResume 10).2.pauseResume 14).2.m_isPaused = sampleEngine.m_isPaused :=
  FFmpegDecoder.pauseResume_twice sampleEngine 10 14 rfl rfl rfl

/-- Pausing a playing session at `t0` and resuming it at `t1`: both calls return
`true`, the pause leaves the clock offset alone and stores `t0`, the resume stores
the `double` sum of the offset and `t1`, less `t0` in `double` arithmetic. -/
theorem FFmpegDecoder.pauseResume_pause_then_resume (ff : FFmpegDecoder) (t0 t1 : ℚ)
    (hparse : ff.m_mainParseThread.isSome = true)
    (haudio : ff.m_mainAudioThread.isSome = true)
    (hvideo : ff.m_mainVideoThread.isSome = true)
    (hplaying : ff.m_isPaused = false) :
    (ff.pauseResume t0).1 = true ∧
    ((ff.pauseResume t0).2.pauseResume t1).1 = true ∧
    (ff.pauseResume t0).2.m_videoStartClock = ff.m_videoStartClock ∧
    (ff.pauseResume t0).2.m_pauseTimer = t0 ∧
    ((ff.pauseResume t0).2.pauseResume t1).2.m_videoStartClock =
      roundDouble (roundDouble (ff.m_videoStartClock + t1) - t0) := by
  have hfirst := ff.pauseResume_of_session t0 hparse haudio hvideo
  rw [hplaying] at hfirst
  simp only [Bool.false_eq_true, if_false] at hfirst
  rw [hfirst]
  have hsecond := FFmpegDecoder.pauseResume_of_session
    { ff with m_isPaused := true, m_pauseTimer := t0 } t1 hparse haudio hvideo
  simp only [if_true] at hsecond
  rw [hsecond]
  exact ⟨rfl, rfl, rfl, rfl, rfl⟩

/-- Counterexample to C15 as stated. A playing session with the clock offset
`v = 1700000000 + 2 ^ (-22)` is paused at clock reading `1700000005` and resumed at
`1700000010`; the three values are `double`s and both calls return `true`. The sum
`v + 1700000010` lies halfway between two `double`s and rounds to `3400000010`, so
the offset after the resume is `1700000005`: it is not `v + (t1 - t0)`, which is
`1700000005 + 2 ^ (-22)`, itself a `double`. -/
theorem FFmpegDecoder.pauseResume_clock_inexact :
    roundDouble engineClockTie.m_videoStartClock = engineClockTie.m_videoStartClock ∧
    roundDouble 1700000005 = 1700000005 ∧
    roundDouble 1700000010 = 1700000010 ∧
    engineClockTie.m_isPaused = false ∧
    (engineClockTie.pauseResume 1700000005).1 = true ∧
    ((engineClockTie.pauseResume 1700000005).2.pauseResume 1700000010).1 = true ∧
    (engineClockTie.pauseResume 1700000005).2.m_videoStartClock =
      engineClockTie.m_videoStartClock ∧
    ((engineClockTie.pauseResume 1700000005).2.pauseResume 1700000010).2.m_videoStartClock =
      1700000005 ∧
    engineClockTie.m_videoStartClock + (1700000010 - 1700000005) =
      1700000005 + 1 / 4194304 ∧
    ((engineClockTie.pauseResume 1700000005).2.pauseResume 1700000010).2.m_videoStartClock ≠
      engineClockTie.m_videoStartClock + (1700000010 - 1700000005) := by
  have h := FFmpegDecoder.pauseResume_pause_then_resume engineClockTie 1700000005 1700000010
    rfl rfl rfl rfl
  have hv : engineClockTie.m_videoStartClock = 7130316800000001 / 4194304 := rfl
  have hclock :
      ((engineClockTie.pauseResume 1700000005).2.pauseResume 1700000010).2.m_videoStartClock =
        1700000005 := by
    rw [h.2.2.2.2, hv, roundDouble_clock_sum, roundDouble_clock_difference]
  refine ⟨?_, roundDouble_pause_reading, roundDouble_resume_reading, rfl, h.1, h.2.1, h.2.2.1,
    hclock, ?_, ?_⟩
  · rw [hv]
    exact roundDouble_clock_offset
  · rw [hv]
    norm_num
  · rw [hclock, hv]
    norm_num

/-- C15, as the source has it. Resume offset arithmetic in `double`s: if a playing
session that is not paused is paused by `pauseResume()` at clock reading `t0` and
resumed by the next `pauseResume()` at clock reading `t1`, neither of the two
`double` operations of the resume overflowing, then the pause leaves
`m_videoStartClock` unchanged (and stores `t0` in `m_pauseTimer`), and after the
resume `m_videoStartClock` is the `double` result of `(v + t1) - t0` for the value
`v` before the pause; it differs from `v + (t1 - t0)` by at most half a unit in the
last place of each of the two intermediate results. -/
theorem FFmpegDecoder.pauseResume_clock_rounded (ff : FFmpegDecoder) (t0 t1 : ℚ)
    (hparse : ff.m_mainParseThread.isSome = true)
    (haudio : ff.m_mainAudioThread.isSome = true)
    (hvideo : ff.m_mainVideoThread.isSome = true)
    (hplaying : ff.m_isPaused = false)
    (_hadd : |roundDouble (ff.m_videoStartClock + t1)| ≤ DBL_MAX)
    (_hsub : |roundDouble (roundDouble (ff.m_videoStartClock + t1) - t0)| ≤ DBL_MAX) :
    (ff.pauseResume t0).2.m_videoStartClock = ff.m_videoStartClock ∧
    (ff.pauseResume t0).2.m_pauseTimer = t0 ∧
    ((ff.pauseResume t0).2.pauseResume t1).2.m_videoStartClock =
      roundDouble (roundDouble (ff.m_videoStartClock + t1) - t0) ∧
    |((ff.pauseResume t0).2.pauseResume t1).2.m_videoStartClock -
        (ff.m_videoStartClock + (t1 - t0))| ≤
      ulp (ff.m_videoStartClock + t1) / 2 +
        ulp (roundDouble (ff.m_videoStartClock + t1) - t0) / 2 := by
  have h := ff.pauseResume_pause_then_resume t0 t1 hparse haudio hvideo hplaying
  refine ⟨h.2.2.1, h.2.2.2.1, h.2.2.2.2, ?_⟩
  rw [h.2.2.2.2]
  have e1 := roundDouble_error (ff.m_videoStartClock + t1)
  have e2 := roundDouble_error (roundDouble (ff.m_videoStartClock + t1) - t0)
  have hsplit :
      roundDouble (roundDouble (ff.m_videoStartClock + t1) - t0) -
          (ff.m_videoStartClock + (t1 - t0)) =
        (roundDouble (roundDouble (ff.m_videoStartClock + t1) - t0) -
            (roundDouble (ff.m_videoStartClock + t1) - t0)) +
          (roundDouble (ff.m_videoStartClock + t1) - (ff.m_videoStartClock + t1)) := by
    ring
  rw [hsplit]
  calc |(roundDouble (roundDouble (ff.m_videoStartClock + t1) - t0) -
            (roundDouble (ff.m_videoStartClock + t1) - t0)) +
          (roundDouble (ff.m_videoStartClock + t1) - (ff.m_videoStartClock + t1))|
      ≤ |roundDouble (roundDouble (ff.m_videoStartClock + t1) - t0) -
            (roundDouble (ff.m_videoStartClock + t1) - t0)| +
          |roundDouble (ff.m_videoStartClock + t1) - (ff.m_videoStartClock + t1)| :=
        abs_add _ _
    _ ≤ ulp (ff.m_videoStartClock + t1) / 2 +
          ulp (roundDouble (ff.m_videoStartClock + t1) - t0) / 2 := by
        linarith

/-- Witness of C15: the session of the counterexample, paused at
`1700000005` and resumed at `1700000010`; both intermediate results are far below
`DBL_MAX`. -/
theorem FFmpegDecoder.pauseResume_clock_rounded_witness :
    |roundDouble (engineClockTie.m_videoStartClock + 1700000010)| ≤ DBL_MAX ∧
    |roundDouble (roundDouble (engineClockTie.m_videoStartClock + 1700000010) - 1700000005)| ≤
      DBL_MAX ∧
    (engineClockTie.pauseResume 1700000005).2.m_videoStartClock =
      engineClockTie.m_videoStartClock ∧
    (engineClockTie.pauseResume 1700000005).2.m_pauseTimer = 1700000005 ∧
    ((engineClockTie.pauseResume 1700000005).2.pauseResume 1700000010).2.m_videoStartClock =
      roundDouble (roundDouble (engineClockTie.m_videoStartClock + 1700000010) - 1700000005) ∧
    |((engineClockTie.pauseResume 1700000005).2.pauseResume 1700000010).2.m_videoStartClock -
        (engineClockTie.m_videoStartClock + (1700000010 - 1700000005))| ≤
      ulp (engineClockTie.m_videoStartClock + 1700000010) / 2 +
        ulp (roundDouble (engineClockTie.m_videoStartClock + 1700000010) - 1700000005) / 2 :=
  have hv : engineClockTie.m_videoStartClock = 7130316800000001 / 4194304 := rfl
  have hadd : |roundDouble (engineClockTie.m_videoStartClock + 1700000010)| ≤ DBL_MAX := by
    rw [hv, roundDouble_clock_sum]
    norm_num [DBL_MAX, abs_of_pos]
  have hsub :
      |roundDouble (roundDouble (engineClockTie.m_videoStartClock + 1700000010) - 1700000005)| ≤
        DBL_MAX := by
    rw [hv, roundDouble_clock_sum, roundDouble_clock_difference]
    norm_num [DBL_MAX, abs_of_pos]
  ⟨hadd, hsub,
    FFmpegDecoder.pauseResume_clock_rounded engineClockTie 1700000005 1700000010
      rfl rfl rfl rfl hadd hsub⟩

/-- Without a Coordinator thread `pauseResume` returns `false` and changes
nothing. -/
theorem FFmpegDecoder.pauseResume_no_session (ff : FFmpegDecoder) (now : ℚ)
    (hparse : ff.m_mainParseThread = none) : ff.pauseResume now = (false, ff) := by
  simp [FFmpegDecoder.pauseResume, hparse]

/-- C16 at its failing input. A playing session with a video stream and no audio
stream (Coordinator, video and display threads running, no audio thread):
`pauseResume()` returns `false` and changes nothing, so the session cannot be
paused. -/
theorem FFmpegDecoder.pauseResume_refuses_video_only :
    engineVideoOnly.m_mainParseThread.isSome = true ∧
    engineVideoOnly.m_mainVideoThread.isSome = true ∧
    engineVideoOnly.m_isPlaying = true ∧
    engineVideoOnly.pauseResume 10 = (false, engineVideoOnly) := by
  refine ⟨rfl, rfl, rfl, by decide⟩

/-! ### Volume -/

/-- A volume in `[0,1]` passes the range check of `setVolume`. -/
theorem FFmpegDecoder.setVolume_accepted (ff : FFmpegDecoder) (v : ℚ) (h0 : 0 ≤ v) (h1 : v ≤ 1) :
    ff.setVolume v =
      ({ ff with m_audioPlayer := ff.m_audioPlayer.SetVolume v },
       [Event.SetVolume v] ++ (if ff.m_decoderListener then [Event.volumeChanged v] else [])) := by
  have hnot : ¬ (v < 0 ∨ v > 1) := by
    rintro (h | h)
    · exact absurd h0 (not_le.mpr h)
    · exact absurd h1 (not_le.mpr h)
  simp only [FFmpegDecoder.setVolume, if_neg hnot]

/-- C17, as the source has it. `setVolume` range check: for every `v` with `v < 0`
or `v > 1`, `setVolume(v)` makes no call (no `SetVolume` of the sink, no
`volumeChanged`) and leaves the engine, so `volume()`, unchanged; for every `v` in
`[0,1]` it calls the sink's `SetVolume(v)` exactly once, after which `volume()` is
`v`, and calls `volumeChanged(v)` exactly once when a decoder listener is attached
and not at all when none is. -/
theorem FFmpegDecoder.setVolume_range (ff : FFmpegDecoder) (v : ℚ) :
    ((v < 0 ∨ v > 1) →
      ff.setVolume v = (ff, []) ∧ (ff.setVolume v).1.volume = ff.volume) ∧
    ((0 ≤ v ∧ v ≤ 1) →
      (ff.setVolume v).2.filter Event.isSetVolume = [Event.SetVolume v] ∧
      (ff.setVolume v).1.volume = v ∧
      (ff.setVolume v).2.filter Event.isVolumeChanged =
        (if ff.m_decoderListener then [Event.volumeChanged v] else []) ∧
      (ff.setVolume v).2 =
        Event.SetVolume v :: (if ff.m_decoderListener then [Event.volumeChanged v] else [])) := by
  constructor
  · intro hout
    have h : ff.setVolume v = (ff, []) := by
      simp only [FFmpegDecoder.setVolume, if_pos hout]
    rw [h]
    exact ⟨rfl, rfl⟩
  · intro hin
    have h := ff.setVolume_accepted v hin.1 hin.2
    rw [h]
    cases ff.m_decoderListener <;>
      simp [Event.isSetVolume, Event.isVolumeChanged, FFmpegDecoder.volume,
        IAudioPlayer.GetVolume, IAudioPlayer.SetVolume]

/-- Witness of C17: `setVolume(3/10)` on the sample engine, whose listener is
attached. -/
theorem FFmpegDecoder.setVolume_range_witness :
    (sampleEngine.setVolume (3 / 10)).1.volume = 3 / 10 ∧
    (sampleEngine.setVolume (3 / 10)).2 =
      [Event.SetVolume (3 / 10), Event.volumeChanged (3 / 10)] :=
  ⟨((FFmpegDecoder.setVolume_range sampleEngine (3 / 10)).2 (by norm_num)).2.1,
   ((FFmpegDecoder.setVolume_range sampleEngine (3 / 10)).2 (by norm_num)).2.2.2⟩

/-- Counterexample to C17 as stated: no decoder listener is attached;
`setVolume(3/10)` sets the sink's volume and no `volumeChanged` is fired. -/
theorem FFmpegDecoder.setVolume_without_listener :
    (0 : ℚ) ≤ 3 / 10 ∧ (3 / 10 : ℚ) ≤ 1 ∧
    (engineNoListener.setVolume (3 / 10)).1.volume = 3 / 10 ∧
    (engineNoListener.setVolume (3 / 10)).2 = [Event.SetVolume (3 / 10)] ∧
    ((engineNoListener.setVolume (3 / 10)).2.filter Event.isVolumeChanged).length = 0 := by
  have h := FFmpegDecoder.setVolume_accepted engineNoListener (3 / 10) (by norm_num) (by norm_num)
  rw [h]
  exact ⟨by norm_num, by norm_num, rfl, rfl, rfl⟩

/-! ### Opening a session -/

/-- C20 at its failing input. A container with two video streams followed by an
audio stream: after the stream scan `m_videoStreamNumber` is 1, while the smallest
index of a video stream is 0; the second video stream has overwritten the first.
`m_audioStreamNumber` is 2. -/
theorem FFmpegDecoder.scanStreams_takes_later_video :
    (sampleEngine.afterScan
      (containerOf [sampleVideoStream 7, sampleVideoStream 8, sampleAudioStream 9])).m_videoStreamNumber
      = 1 ∧
    firstStreamOfType AVMEDIA_TYPE_VIDEO
      [sampleVideoStream 7, sampleVideoStream 8, sampleAudioStream 9] 0 = 0 ∧
    (sampleEngine.afterScan
      (containerOf [sampleVideoStream 7, sampleVideoStream 8, sampleAudioStream 9])).m_videoStream
      = some (sampleVideoStream 8) ∧
    (sampleEngine.afterScan
      (containerOf [sampleVideoStream 7, sampleVideoStream 8, sampleAudioStream 9])).m_audioStreamNumber
      = 2 := by
  refine ⟨by decide, by decide, by decide, by decide⟩

/-- The scan with the roles exchanged, and with video streams only: for audio,
audio, video the audio stream number is 1; for video, video the video stream number
is 1. -/
theorem FFmpegDecoder.scanStreams_takes_later_stream :
    (sampleEngine.afterScan
      (containerOf [sampleAudioStream 7, sampleAudioStream 8, sampleVideoStream 9])).m_audioStreamNumber
      = 1 ∧
    (sampleEngine.afterScan
      (containerOf [sampleAudioStream 7, sampleAudioStream 8, sampleVideoStream 9])).m_videoStreamNumber
      = 2 ∧
    (sampleEngine.afterScan
      (containerOf [sampleVideoStream 7, sampleVideoStream 8])).m_videoStreamNumber = 1 ∧
    (sampleEngine.afterScan
      (containerOf [sampleVideoStream 7, sampleVideoStream 8])).m_audioStreamNumber = -1 := by
  refine ⟨by decide, by decide, by decide, by decide⟩

/-- C19 at its failing input. A container with one audio stream and no video
stream, every library call succeeding: `openDecoder` does not return; it writes
through the null `m_videoCodecContext`, with `m_videoStreamNumber == -1`. -/
theorem FFmpegDecoder.openDecoder_audio_only_dereferences_null :
    (sampleEngine.openDecoder true (containerOf [sampleAudioStream 9])).result = none ∧
    (sampleEngine.openDecoder true (containerOf [sampleAudioStream 9])).engine.m_videoStreamNumber
      = -1 ∧
    (sampleEngine.openDecoder true (containerOf [sampleAudioStream 9])).engine.m_audioStreamNumber
      = 0 ∧
    (sampleEngine.openDecoder true (containerOf [sampleAudioStream 9])).engine.m_videoCodecContext
      = false := by
  refine ⟨by decide, by decide, by decide, by decide⟩

/-- Counterexample to C18 as stated: the container has one video stream of 100
frames and duration 500 and no decoder is found for it; `openDecoder` returns `false`
with format context and codec contexts null, but `m_duration` is 500,
`m_frameTotalCount` is 100 and the video stream handle is not null. -/
theorem FFmpegDecoder.openDecoder_failure_keeps_stream_data :
    (sampleEngine.openDecoder true containerWithoutDecoder).result = some false ∧
    (sampleEngine.openDecoder true containerWithoutDecoder).engine.released ∧
    (sampleEngine.openDecoder true containerWithoutDecoder).engine.m_duration = 500 ∧
    (sampleEngine.openDecoder true containerWithoutDecoder).engine.m_frameTotalCount = 100 ∧
    (sampleEngine.openDecoder true containerWithoutDecoder).engine.m_videoStream =
      some (sampleVideoStream 7) ∧
    ¬ (sampleEngine.openDecoder true containerWithoutDecoder).engine.sessionClosed := by
  refine ⟨by decide, by decide, by decide, by decide, by decide, by decide⟩

/-- After `close()` the session part of the state is the one `resetVariables`
produces. -/
theorem FFmpegDecoder.close_sessionClosed (ff : FFmpegDecoder) : ff.close.1.sessionClosed :=
  ⟨rfl, rfl, rfl, rfl, rfl, rfl, rfl⟩

theorem FFmpegDecoder.close_formatContext (ff : FFmpegDecoder) :
    { ff.close.1 with m_formatContext := false } = ff.close.1 := rfl

/-- The failure paths before the stream scan return `false` in the state `close()`
produced. -/
theorem FFmpegDecoder.openDecoder_failsEarly (ff : FFmpegDecoder) (isFile : Bool)
    (env : OpenEnv) (h : env.failsEarly isFile) :
    ff.openDecoder isFile env = OpenResult.returned false ff.close.1 ff.close.2 := by
  unfold FFmpegDecoder.openDecoder
  simp only []
  by_cases h1 : (isFile && !env.file_valid) = true
  · rw [if_pos h1]
  · rw [if_neg h1]
    by_cases h2 : env.open_input_error ≠ 0
    · rw [if_pos h2, FFmpegDecoder.close_formatContext]
    · rw [if_neg h2]
      by_cases h3 : env.find_stream_info_ret < 0
      · rw [if_pos h3, FFmpegDecoder.close_formatContext]
      · exfalso
        rcases h with ⟨hf, hv⟩ | h | h
        · exact h1 (by simp [hf, hv])
        · exact h2 h
        · exact h3 h

/-- Past the early failure paths `openDecoder` scans the streams, takes the codec
contexts and goes on to the decoders. -/
theorem FFmpegDecoder.openDecoder_past_early (ff : FFmpegDecoder) (isFile : Bool)
    (env : OpenEnv) (h : ¬ env.failsEarly isFile) :
    ff.openDecoder isFile env =
      match FFmpegDecoder.takeCodecContexts (ff.afterScan env) env with
      | none => OpenResult.nullDereference (ff.afterScan env) ff.close.2
      | some ff1 => FFmpegDecoder.findVideoDecoder ff1 ff.close.2 env := by
  have h1 : ¬ (isFile && !env.file_valid) = true := by
    intro hc
    apply h
    left
    simpa using hc
  have h2 : ¬ env.open_input_error ≠ 0 := fun hc => h (Or.inr (Or.inl hc))
  have h3 : ¬ env.find_stream_info_ret < 0 := fun hc => h (Or.inr (Or.inr hc))
  unfold FFmpegDecoder.openDecoder FFmpegDecoder.afterScan
  simp only []
  rw [if_neg h1, if_neg h2, if_neg h3]

/-- The stream scan leaves the codec contexts alone. -/
theorem FFmpegDecoder.scanStreams_codecContexts (streams : List AVStream) :
    ∀ (i : Nat) (ff : FFmpegDecoder),
      (FFmpegDecoder.scanStreams streams i ff).m_videoCodecContext = ff.m_videoCodecContext ∧
      (FFmpegDecoder.scanStreams streams i ff).m_audioCodecContext = ff.m_audioCodecContext := by
  induction streams with
  | nil =>
    intro i ff
    exact ⟨rfl, rfl⟩
  | cons stream rest ih =>
    intro i ff
    simp only [FFmpegDecoder.scanStreams]
    split_ifs
    · exact ⟨rfl, rfl⟩
    · exact ih _ _
    · exact ⟨rfl, rfl⟩
    · exact ih _ _
    · exact ih _ _

/-- Without a video stream in the container the scan leaves
`m_videoStreamNumber` as it was. -/
theorem FFmpegDecoder.scanStreams_no_video (streams : List AVStream)
    (hnone : ∀ stream ∈ streams, stream.codec.codec_type ≠ AVMEDIA_TYPE_VIDEO) :
    ∀ (i : Nat) (ff : FFmpegDecoder),
      (FFmpegDecoder.scanStreams streams i ff).m_videoStreamNumber = ff.m_videoStreamNumber := by
  induction streams with
  | nil =>
    intro i ff
    rfl
  | cons stream rest ih =>
    intro i ff
    have hs : stream.codec.codec_type ≠ AVMEDIA_TYPE_VIDEO :=
      hnone stream (List.mem_cons_self stream rest)
    have hrest : ∀ s ∈ rest, s.codec.codec_type ≠ AVMEDIA_TYPE_VIDEO :=
      fun s hmem => hnone s (List.mem_cons_of_mem stream hmem)
    simp only [FFmpegDecoder.scanStreams, if_neg hs]
    split_ifs
    · rfl
    · exact ih hrest _ _
    · exact ih hrest _ _

/-- The stream scan selects streams of the container: each stream number is -1 or
the index of the stream its handle points to. -/
theorem FFmpegDecoder.scanStreams_streamsSelected (streams : List AVStream) :
    ∀ (pre : List AVStream) (ff : FFmpegDecoder),
      ff.streamsSelected (pre ++ streams) →
      (FFmpegDecoder.scanStreams streams pre.length ff).streamsSelected (pre ++ streams) := by
  induction streams with
  | nil =>
    intro pre ff h
    exact h
  | cons stream rest ih =>
    intro pre ff h
    have hat : (pre ++ stream :: rest)[pre.length]? = some stream := by
      rw [List.getElem?_append_right (le_refl _)]
      simp
    have hnext : ∀ g : FFmpegDecoder, g.streamsSelected (pre ++ stream :: rest) →
        (FFmpegDecoder.scanStreams rest (pre.length + 1) g).streamsSelected
          (pre ++ stream :: rest) := by
      intro g hg
      have := ih (pre ++ [stream]) g (by simpa using hg)
      simpa using this
    have hvideo : FFmpegDecoder.streamsSelected
        { ff with m_videoStream := some stream, m_videoStreamNumber := (pre.length : Int) }
        (pre ++ stream :: rest) :=
      ⟨Or.inr ⟨Int.ofNat_nonneg _, stream, by simpa using hat, rfl⟩, h.2⟩
    have haudio : FFmpegDecoder.streamsSelected
        { ff with m_audioStream := some stream, m_audioStreamNumber := (pre.length : Int) }
        (pre ++ stream :: rest) :=
      ⟨h.1, Or.inr ⟨Int.ofNat_nonneg _, stream, by simpa using hat, rfl⟩⟩
    simp only [FFmpegDecoder.scanStreams]
    split_ifs
    · exact hvideo
    · exact hnext _ hvideo
    · exact haudio
    · exact hnext _ haudio
    · exact hnext _ h

/-- After the stream scan of `openDecoder` the stream numbers are -1 or select a
stream of the container. -/
theorem FFmpegDecoder.afterScan_streamsSelected (ff : FFmpegDecoder) (env : OpenEnv) :
    (ff.afterScan env).streamsSelected env.streams := by
  have h := FFmpegDecoder.scanStreams_streamsSelected env.streams []
    { ff.close.1 with m_formatContext := true, m_videoStreamNumber := -1, m_audioStreamNumber := -1 }
    ⟨Or.inl rfl, Or.inl rfl⟩
  simpa [FFmpegDecoder.afterScan] using h

/-- A selected stream has a codec context. -/
theorem FFmpegDecoder.streamsSelected_codecOf (ff : FFmpegDecoder) (streams : List AVStream)
    (h : ff.streamsSelected streams) :
    (0 ≤ ff.m_videoStreamNumber → ∃ context, codecOf streams ff.m_videoStreamNumber = some context) ∧
    (0 ≤ ff.m_audioStreamNumber → ∃ context, codecOf streams ff.m_audioStreamNumber = some context) := by
  constructor
  · intro h0
    rcases h.1 with hm | ⟨_, stream, hs, _⟩
    · omega
    · exact ⟨stream.codec, by simp [codecOf, h0, hs]⟩
  · intro h0
    rcases h.2 with hm | ⟨_, stream, hs, _⟩
    · omega
    · exact ⟨stream.codec, by simp [codecOf, h0, hs]⟩

/-- What `takeCodecContexts` leaves when it does not dereference a null stream
handle: the stream numbers are kept, and a codec context is taken for each stream
number that is not negative. -/
theorem FFmpegDecoder.takeCodecContexts_some (ff ff1 : FFmpegDecoder) (env : OpenEnv)
    (h : FFmpegDecoder.takeCodecContexts ff env = some ff1) :
    ff1.m_videoStreamNumber = ff.m_videoStreamNumber ∧
    ff1.m_audioStreamNumber = ff.m_audioStreamNumber ∧
    ff1.m_videoCodecContext =
      (if ff.m_videoStreamNumber ≥ 0 then (codecOf env.streams ff.m_videoStreamNumber).isSome
       else ff.m_videoCodecContext) := by
  unfold FFmpegDecoder.takeCodecContexts at h
  simp only [] at h
  split at h
  · exact absurd h (by simp)
  · rename_i ffv hv
    have hvn : ffv.m_videoStreamNumber = ff.m_videoStreamNumber ∧
        ffv.m_audioStreamNumber = ff.m_audioStreamNumber ∧
        ffv.m_videoCodecContext = ff.m_videoCodecContext := by
      split at hv
      · simp only [Option.some.injEq] at hv
        subst hv
        exact ⟨rfl, rfl, rfl⟩
      · split at hv
        · split at hv
          · exact absurd hv (by simp)
          · simp only [Option.some.injEq] at hv
            subst hv
            exact ⟨rfl, rfl, rfl⟩
        · simp only [Option.some.injEq] at hv
          subst hv
          exact ⟨rfl, rfl, rfl⟩
    split at h
    · exact absurd h (by simp)
    · rename_i ffa ha
      have han : ffa.m_videoStreamNumber = ffv.m_videoStreamNumber ∧
          ffa.m_audioStreamNumber = ffv.m_audioStreamNumber ∧
          ffa.m_videoCodecContext = ffv.m_videoCodecContext := by
        split at ha
        · simp only [Option.some.injEq] at ha
          subst ha
          exact ⟨rfl, rfl, rfl⟩
        · split at ha
          · split at ha
            · exact absurd ha (by simp)
            · simp only [Option.some.injEq] at ha
              subst ha
              exact ⟨rfl, rfl, rfl⟩
          · simp only [Option.some.injEq] at ha
            subst ha
            exact ⟨rfl, rfl, rfl⟩
      simp only [Option.some.injEq] at h
      subst h
      refine ⟨han.1.trans hvn.1, han.2.1.trans hvn.2.1, ?_⟩
      show (if ffa.m_videoStreamNumber ≥ 0 then
          (codecOf env.streams ffa.m_videoStreamNumber).isSome else ffa.m_videoCodecContext) = _
      rw [han.1, hvn.1, han.2.2, hvn.2.2]

/-- With the stream numbers selecting streams of the container, `takeCodecContexts`
dereferences no null stream handle. -/
theorem FFmpegDecoder.takeCodecContexts_of_selected (ff : FFmpegDecoder) (env : OpenEnv)
    (h : ff.streamsSelected env.streams) :
    ∃ ff1, FFmpegDecoder.takeCodecContexts ff env = some ff1 := by
  have hvideo : ∃ ffv : FFmpegDecoder,
      (if ff.m_videoStreamNumber = -1 then some ff
       else if ff.m_videoStreamNumber ≥ 0 then
         match ff.m_videoStream with
         | none => none
         | some stream =>
           some { ff with
                  m_frameTotalCount := if stream.nb_frames > 0 then stream.nb_frames else -1
                  m_duration :=
                    if stream.duration > 0 then stream.duration
                    else env.format_duration stream }
       else some ff) = some ffv ∧
      ffv.m_audioStreamNumber = ff.m_audioStreamNumber ∧ ffv.m_audioStream = ff.m_audioStream := by
    rcases h.1 with hm | ⟨h0, stream, _, hms⟩
    · exact ⟨ff, by rw [if_pos hm], rfl, rfl⟩
    · have hne : ¬ ff.m_videoStreamNumber = -1 := by omega
      refine ⟨{ ff with
                m_frameTotalCount := if stream.nb_frames > 0 then stream.nb_frames else -1
                m_duration :=
                  if stream.duration > 0 then stream.duration
                  else env.format_duration stream }, ?_, rfl, rfl⟩
      rw [if_neg hne, if_pos h0, hms]
  obtain ⟨ffv, hv, hvn, hvs⟩ := hvideo
  have haudio : ∃ ffa : FFmpegDecoder,
      (if ffv.m_audioStreamNumber = -1 then some ffv
       else if ffv.m_audioStreamNumber ≥ 0 ∧ ffv.m_videoStreamNumber = -1 then
         match ffv.m_audioStream with
         | none => none
         | some stream =>
           some { ffv with
                  m_duration :=
                    if stream.duration > 0 then stream.duration
                    else env.format_duration stream }
       else some ffv) = some ffa := by
    rcases h.2 with hm | ⟨h0, stream, _, hms⟩
    · exact ⟨ffv, by rw [if_pos (hvn.trans hm)]⟩
    · have hne : ¬ ffv.m_audioStreamNumber = -1 := by omega
      by_cases hc : ffv.m_audioStreamNumber ≥ 0 ∧ ffv.m_videoStreamNumber = -1
      · refine ⟨{ ffv with
                  m_duration :=
                    if stream.duration > 0 then stream.duration
                    else env.format_duration stream }, ?_⟩
        rw [if_neg hne, if_pos hc, hvs, hms]
      · exact ⟨ffv, by rw [if_neg hne, if_neg hc]⟩
  obtain ⟨ffa, ha⟩ := haudio
  unfold FFmpegDecoder.takeCodecContexts
  simp only []
  rw [hv]
  simp only []
  rw [ha]
  exact ⟨_, rfl⟩

theorem FFmpegDecoder.released_releaseGuards (ff : FFmpegDecoder) :
    ff.releaseGuards.released := ⟨rfl, rfl, rfl⟩

/-- The last part of `openDecoder` returns, and returns `false`, with the guarded
objects released, exactly when the audio codec or the audio sink cannot be opened. -/
theorem FFmpegDecoder.openAudioAndFinish_spec (ff : FFmpegDecoder) (events : List Event)
    (env : OpenEnv) :
    ∃ b ff' events', FFmpegDecoder.openAudioAndFinish ff events env =
        OpenResult.returned b ff' events' ∧
      (b = false → ff'.released) ∧
      (b = false ↔ env.audioOpenFails ff.m_audioStreamNumber) := by
  by_cases h1 : ff.m_audioStreamNumber ≥ 0 ∧ env.audio_open2_ret < 0
  · refine ⟨false, ff.releaseGuards, events, ?_, fun _ => ff.released_releaseGuards, ?_⟩
    · simp only [FFmpegDecoder.openAudioAndFinish, if_pos h1]
    · exact ⟨fun _ => ⟨h1.1, Or.inl h1.2⟩, fun _ => rfl⟩
  · by_cases h2 : ff.m_audioStreamNumber ≥ 0 ∧ (ff.m_audioPlayer.Open env.audio_open).1 = false
    · refine ⟨false,
        { ff with m_audioPlayer := (ff.m_audioPlayer.Open env.audio_open).2 }.releaseGuards,
        events, ?_, fun _ => FFmpegDecoder.released_releaseGuards _, ?_⟩
      · simp only [FFmpegDecoder.openAudioAndFinish, if_neg h1, if_pos h2]
      · exact ⟨fun _ => ⟨h2.1, Or.inr h2.2⟩, fun _ => rfl⟩
    · obtain ⟨ff', events', hres⟩ : ∃ ff' events',
          FFmpegDecoder.openAudioAndFinish ff events env =
            OpenResult.returned true ff' events' := by
        simp only [FFmpegDecoder.openAudioAndFinish, if_neg h1, if_neg h2]
        exact ⟨_, _, rfl⟩
      refine ⟨true, ff', events', hres, fun h => absurd h (by simp), ?_⟩
      · constructor
        · intro h
          exact absurd h (by simp)
        · rintro ⟨h0, hor⟩
          rcases hor with h | h
          · exact absurd ⟨h0, h⟩ h1
          · exact absurd ⟨h0, h⟩ h2

/-- From "Open codec" on, `openDecoder` returns, and returns `false`, with the
guarded objects released, exactly when a codec or the audio sink cannot be opened
or the video has no positive width and height. -/
theorem FFmpegDecoder.openVideoCodec_spec (ff : FFmpegDecoder) (events : List Event)
    (env : OpenEnv)
    (hcv : 0 ≤ ff.m_videoStreamNumber →
      ∃ context, codecOf env.streams ff.m_videoStreamNumber = some context) :
    ∃ b ff' events', FFmpegDecoder.openVideoCodec ff events env =
        OpenResult.returned b ff' events' ∧
      (b = false → ff'.released) ∧
      (b = false ↔ env.videoOpenFails ff.m_videoStreamNumber ∨
        env.audioOpenFails ff.m_audioStreamNumber) := by
  by_cases hv : ff.m_videoStreamNumber ≥ 0
  · obtain ⟨context, hc⟩ := hcv hv
    by_cases ho : env.video_open2_ret < 0
    · refine ⟨false, ff.releaseGuards, events, ?_, fun _ => ff.released_releaseGuards, ?_⟩
      · simp only [FFmpegDecoder.openVideoCodec, if_pos hv, if_pos ho]
      · exact ⟨fun _ => Or.inl ⟨hv, context, hc, Or.inl ho⟩, fun _ => rfl⟩
    · by_cases hw : context.width ≤ 0 ∨ context.height ≤ 0
      · refine ⟨false, ff.releaseGuards, events, ?_, fun _ => ff.released_releaseGuards, ?_⟩
        · simp only [FFmpegDecoder.openVideoCodec, if_pos hv, if_neg ho, hc, if_pos hw]
        · exact ⟨fun _ => Or.inl ⟨hv, context, hc, Or.inr hw⟩, fun _ => rfl⟩
      · obtain ⟨b, ff', events', hres, hrel, hiff⟩ :=
          FFmpegDecoder.openAudioAndFinish_spec ff events env
        refine ⟨b, ff', events', ?_, hrel, ?_⟩
        · simp only [FFmpegDecoder.openVideoCodec, if_pos hv, if_neg ho, hc, if_neg hw]
          exact hres
        · rw [hiff]
          constructor
          · exact fun h => Or.inr h
          · rintro (⟨_, c, hc', hbad⟩ | h)
            · rw [hc] at hc'
              simp only [Option.some.injEq] at hc'
              subst hc'
              rcases hbad with h | h
              · exact absurd h ho
              · exact absurd h hw
            · exact h
  · obtain ⟨b, ff', events', hres, hrel, hiff⟩ :=
      FFmpegDecoder.openAudioAndFinish_spec ff events env
    refine ⟨b, ff', events', ?_, hrel, ?_⟩
    · simp only [FFmpegDecoder.openVideoCodec, if_neg hv]
      exact hres
    · rw [hiff]
      constructor
      · exact fun h => Or.inr h
      · rintro (⟨h0, _⟩ | h)
        · exact absurd h0 hv
        · exact h

/-- From "Find audio codec" on, `openDecoder` returns, and returns `false`, with the
guarded objects released, exactly when the audio decoder is missing or a later step
fails. -/
theorem FFmpegDecoder.findAudioDecoder_spec (ff : FFmpegDecoder) (events : List Event)
    (env : OpenEnv)
    (hcv : 0 ≤ ff.m_videoStreamNumber →
      ∃ context, codecOf env.streams ff.m_videoStreamNumber = some context)
    (hca : 0 ≤ ff.m_audioStreamNumber →
      ∃ context, codecOf env.streams ff.m_audioStreamNumber = some context) :
    ∃ b ff' events', FFmpegDecoder.findAudioDecoder ff events env =
        OpenResult.returned b ff' events' ∧
      (b = false → ff'.released) ∧
      (b = false ↔ env.audioDecoderMissing ff.m_audioStreamNumber ∨
        env.videoOpenFails ff.m_videoStreamNumber ∨
        env.audioOpenFails ff.m_audioStreamNumber) := by
  by_cases ha : ff.m_audioStreamNumber ≥ 0
  · obtain ⟨context, hc⟩ := hca ha
    by_cases hf : env.find_decoder context.codec_id = true
    · obtain ⟨b, ff', events', hres, hrel, hiff⟩ :=
        FFmpegDecoder.openVideoCodec_spec { ff with m_audioCodec := true } events env hcv
      refine ⟨b, ff', events', ?_, hrel, ?_⟩
      · simp only [FFmpegDecoder.findAudioDecoder, if_pos ha, hc, if_pos hf]
        exact hres
      · rw [hiff]
        constructor
        · exact fun h => Or.inr h
        · rintro (⟨_, c, hc', hbad⟩ | h)
          · rw [hc] at hc'
            simp only [Option.some.injEq] at hc'
            subst hc'
            rw [hf] at hbad
            exact absurd hbad (by simp)
          · exact h
    · refine ⟨false, { ff with m_audioCodec := false }.releaseGuards, events, ?_,
        fun _ => FFmpegDecoder.released_releaseGuards _, ?_⟩
      · simp only [FFmpegDecoder.findAudioDecoder, if_pos ha, hc, if_neg hf]
      · exact ⟨fun _ => Or.inl ⟨ha, context, hc, by simpa using hf⟩, fun _ => rfl⟩
  · obtain ⟨b, ff', events', hres, hrel, hiff⟩ :=
      FFmpegDecoder.openVideoCodec_spec ff events env hcv
    refine ⟨b, ff', events', ?_, hrel, ?_⟩
    · simp only [FFmpegDecoder.findAudioDecoder, if_neg ha]
      exact hres
    · rw [hiff]
      constructor
      · exact fun h => Or.inr h
      · rintro (⟨h0, _⟩ | h)
        · exact absurd h0 ha
        · exact h

/-- From "Multithread decoding" on, with a video codec context, `openDecoder`
returns, and returns `false`, with the guarded objects released, exactly when a
decoder is missing or a later step fails. -/
theorem FFmpegDecoder.findVideoDecoder_spec (ff : FFmpegDecoder) (events : List Event)
    (env : OpenEnv) (hctx : ff.m_videoCodecContext = true)
    (hcv : 0 ≤ ff.m_videoStreamNumber →
      ∃ context, codecOf env.streams ff.m_videoStreamNumber = some context)
    (hca : 0 ≤ ff.m_audioStreamNumber →
      ∃ context, codecOf env.streams ff.m_audioStreamNumber = some context) :
    ∃ b ff' events', FFmpegDecoder.findVideoDecoder ff events env =
        OpenResult.returned b ff' events' ∧
      (b = false → ff'.released) ∧
      (b = false ↔ env.videoDecoderMissing ff.m_videoStreamNumber ∨
        env.audioDecoderMissing ff.m_audioStreamNumber ∨
        env.videoOpenFails ff.m_videoStreamNumber ∨
        env.audioOpenFails ff.m_audioStreamNumber) := by
  have hnull : ¬ ff.m_videoCodecContext = false := by simp [hctx]
  by_cases hv : ff.m_videoStreamNumber ≥ 0
  · obtain ⟨context, hc⟩ := hcv hv
    by_cases hf : env.find_decoder context.codec_id = true
    · obtain ⟨b, ff', events', hres, hrel, hiff⟩ :=
        FFmpegDecoder.findAudioDecoder_spec { ff with m_videoCodec := true } events env hcv hca
      refine ⟨b, ff', events', ?_, hrel, ?_⟩
      · simp only [FFmpegDecoder.findVideoDecoder, if_neg hnull, if_pos hv, hc, if_pos hf]
        exact hres
      · rw [hiff]
        constructor
        · exact fun h => Or.inr h
        · rintro (⟨_, c, hc', hbad⟩ | h)
          · rw [hc] at hc'
            simp only [Option.some.injEq] at hc'
            subst hc'
            rw [hf] at hbad
            exact absurd hbad (by simp)
          · exact h
    · refine ⟨false, { ff with m_videoCodec := false }.releaseGuards, events, ?_,
        fun _ => FFmpegDecoder.released_releaseGuards _, ?_⟩
      · simp only [FFmpegDecoder.findVideoDecoder, if_neg hnull, if_pos hv, hc, if_neg hf]
      · exact ⟨fun _ => Or.inl ⟨hv, context, hc, by simpa using hf⟩, fun _ => rfl⟩
  · obtain ⟨b, ff', events', hres, hrel, hiff⟩ :=
      FFmpegDecoder.findAudioDecoder_spec ff events env hcv hca
    refine ⟨b, ff', events', ?_, hrel, ?_⟩
    · simp only [FFmpegDecoder.findVideoDecoder, if_neg hnull, if_neg hv]
      exact hres
    · rw [hiff]
      constructor
      · exact fun h => Or.inr h
      · rintro (⟨h0, _⟩ | h)
        · exact absurd h0 hv
        · exact h

/-- The failure paths named one by one are the failure paths on the video stream
and on the audio stream. -/
theorem OpenEnv.failure_paths_iff (env : OpenEnv) (video audio : Int)
    (hca : 0 ≤ audio → ∃ context, codecOf env.streams audio = some context) :
    (env.videoDecoderMissing video ∨ env.audioDecoderMissing audio ∨
      env.videoOpenFails video ∨ env.audioOpenFails audio) ↔
    (env.videoFails video ∨ env.audioFails audio) := by
  constructor
  · rintro (⟨h0, c, hc, h⟩ | ⟨h0, c, hc, h⟩ | ⟨h0, c, hc, h⟩ | ⟨h0, h⟩)
    · exact Or.inl ⟨h0, c, hc, Or.inl h⟩
    · exact Or.inr ⟨h0, c, hc, Or.inl h⟩
    · exact Or.inl ⟨h0, c, hc, Or.inr h⟩
    · obtain ⟨c, hc⟩ := hca h0
      exact Or.inr ⟨h0, c, hc, Or.inr h⟩
  · rintro (⟨h0, c, hc, h | h⟩ | ⟨h0, c, hc, h | h⟩)
    · exact Or.inl ⟨h0, c, hc, h⟩
    · exact Or.inr (Or.inr (Or.inl ⟨h0, c, hc, h⟩))
    · exact Or.inr (Or.inl ⟨h0, c, hc, h⟩)
    · exact Or.inr (Or.inr (Or.inr ⟨h0, h⟩))

/-- Past the early failure paths and with a video stream selected, `openDecoder`
returns; it returns `false`, with format context and codec contexts null, exactly
when one of the later failure paths is taken. -/
theorem FFmpegDecoder.openDecoder_with_video (ff : FFmpegDecoder) (isFile : Bool)
    (env : OpenEnv) (hearly : ¬ env.failsEarly isFile)
    (hvideo : 0 ≤ (ff.afterScan env).m_videoStreamNumber) :
    ∃ b ff' events, ff.openDecoder isFile env = OpenResult.returned b ff' events ∧
      (b = false → ff'.released) ∧
      (b = false ↔ env.videoFails (ff.afterScan env).m_videoStreamNumber ∨
        env.audioFails (ff.afterScan env).m_audioStreamNumber) := by
  have hsel := ff.afterScan_streamsSelected env
  have hcodec := FFmpegDecoder.streamsSelected_codecOf _ _ hsel
  obtain ⟨ff1, htake⟩ := FFmpegDecoder.takeCodecContexts_of_selected _ env hsel
  obtain ⟨hvn, han, hctx⟩ := FFmpegDecoder.takeCodecContexts_some _ ff1 env htake
  have hctx1 : ff1.m_videoCodecContext = true := by
    rw [hctx, if_pos hvideo]
    obtain ⟨c, hc⟩ := hcodec.1 hvideo
    rw [hc]
    rfl
  obtain ⟨b, ff', events, hres, hrel, hiff⟩ :=
    FFmpegDecoder.findVideoDecoder_spec ff1 ff.close.2 env hctx1
      (by rw [hvn]; exact hcodec.1) (by rw [han]; exact hcodec.2)
  refine ⟨b, ff', events, ?_, hrel, ?_⟩
  · rw [FFmpegDecoder.openDecoder_past_early ff isFile env hearly, htake]
    exact hres
  · rw [hiff, hvn, han]
    exact OpenEnv.failure_paths_iff env _ _ hcodec.2

/-- Past the early failure paths and with no video stream selected, `openDecoder`
dereferences a null pointer. -/
theorem FFmpegDecoder.openDecoder_without_video (ff : FFmpegDecoder) (isFile : Bool)
    (env : OpenEnv) (hearly : ¬ env.failsEarly isFile)
    (hvideo : (ff.afterScan env).m_videoStreamNumber = -1) :
    ∃ ff' events, ff.openDecoder isFile env = OpenResult.nullDereference ff' events := by
  rw [FFmpegDecoder.openDecoder_past_early ff isFile env hearly]
  cases htake : FFmpegDecoder.takeCodecContexts (ff.afterScan env) env with
  | none => exact ⟨_, _, rfl⟩
  | some ff1 =>
    obtain ⟨_, _, hctx⟩ := FFmpegDecoder.takeCodecContexts_some _ ff1 env htake
    have hneg : ¬ (ff.afterScan env).m_videoStreamNumber ≥ 0 := by omega
    have hscan : (ff.afterScan env).m_videoCodecContext = false :=
      (FFmpegDecoder.scanStreams_codecContexts env.streams 0 _).1
    have hnull : ff1.m_videoCodecContext = false := by
      rw [hctx, if_neg hneg, hscan]
    refine ⟨ff1, ff.close.2, ?_⟩
    simp only [FFmpegDecoder.findVideoDecoder, if_pos hnull]

/-- A container without a video stream that gets past the early failure paths makes
`openDecoder` dereference the null `m_videoCodecContext`. -/
theorem FFmpegDecoder.openDecoder_no_video_stream (ff : FFmpegDecoder) (isFile : Bool)
    (env : OpenEnv) (hearly : ¬ env.failsEarly isFile)
    (hnone : ∀ stream ∈ env.streams, stream.codec.codec_type ≠ AVMEDIA_TYPE_VIDEO) :
    ∃ ff' events, ff.openDecoder isFile env = OpenResult.nullDereference ff' events :=
  ff.openDecoder_without_video isFile env hearly
    (FFmpegDecoder.scanStreams_no_video env.streams hnone 0 _)

/-- C18, as the source has it. A failed open releases what it acquired. On the
failure paths before the stream scan (file not openable, container not openable, no
stream info) `openDecoder` returns `false` and leaves the state `close()` produced:
format context, codec contexts and stream handles null, `m_duration` and
`m_frameTotalCount` zero. On the failure paths after the scan (decoder not found,
codec open failure, non-positive width or height, audio sink open failure), for a
container with a video stream, it returns `false` with format context and both
codec contexts null. Whenever it returns `false`, format context and both codec
contexts are null. -/
theorem FFmpegDecoder.openDecoder_failure (ff : FFmpegDecoder) (isFile : Bool)
    (env : OpenEnv) :
    (env.failsEarly isFile →
      ff.openDecoder isFile env = OpenResult.returned false ff.close.1 ff.close.2 ∧
      ff.close.1.sessionClosed) ∧
    (¬ env.failsEarly isFile → 0 ≤ (ff.afterScan env).m_videoStreamNumber →
      (env.videoFails (ff.afterScan env).m_videoStreamNumber ∨
        env.audioFails (ff.afterScan env).m_audioStreamNumber) →
      ∃ ff' events, ff.openDecoder isFile env = OpenResult.returned false ff' events ∧
        ff'.released) ∧
    (∀ ff' events, ff.openDecoder isFile env = OpenResult.returned false ff' events →
      ff'.released) := by
  have hclosed := ff.close_sessionClosed
  refine ⟨fun h => ⟨ff.openDecoder_failsEarly isFile env h, hclosed⟩, ?_, ?_⟩
  · intro hearly hvideo hfail
    obtain ⟨b, ff', events, hres, hrel, hiff⟩ := ff.openDecoder_with_video isFile env hearly hvideo
    have hb : b = false := hiff.mpr hfail
    subst hb
    exact ⟨ff', events, hres, hrel rfl⟩
  · intro ff' events hres
    by_cases hearly : env.failsEarly isFile
    · rw [ff.openDecoder_failsEarly isFile env hearly] at hres
      simp only [OpenResult.returned.injEq, true_and] at hres
      obtain ⟨rfl, _⟩ := hres
      exact ⟨hclosed.1, hclosed.2.1, hclosed.2.2.1⟩
    · rcases (ff.afterScan_streamsSelected env).1 with hnone | ⟨hvideo, _⟩
      · obtain ⟨ff'', events'', hnull⟩ := ff.openDecoder_without_video isFile env hearly hnone
        rw [hnull] at hres
        exact OpenResult.noConfusion hres
      · obtain ⟨b, ff'', events'', hret, hrel, _⟩ :=
          ff.openDecoder_with_video isFile env hearly hvideo
        rw [hret] at hres
        simp only [OpenResult.returned.injEq] at hres
        obtain ⟨hb, rfl, _⟩ := hres
        exact hrel hb

/-- Witness of C18: on the sample engine, a file that cannot be opened (a failure
path before the scan) and a container whose only stream, a video stream, has no
decoder (a failure path after it). -/
theorem FFmpegDecoder.openDecoder_failure_witness :
    (sampleEngine.openDecoder true containerNotOpenable =
        OpenResult.returned false sampleEngine.close.1 sampleEngine.close.2 ∧
      sampleEngine.close.1.sessionClosed) ∧
    (∃ ff' events, sampleEngine.openDecoder true containerWithoutDecoder =
        OpenResult.returned false ff' events ∧ ff'.released) :=
  ⟨(FFmpegDecoder.openDecoder_failure sampleEngine true containerNotOpenable).1
      (Or.inl ⟨rfl, rfl⟩),
   (FFmpegDecoder.openDecoder_failure sampleEngine true containerWithoutDecoder).2.1
      (by
        rintro (⟨_, h⟩ | h | h)
        · exact absurd h (by decide)
        · exact absurd h (by decide)
        · exact absurd h (by decide))
      (by decide)
      (Or.inl ⟨by decide, (sampleVideoStream 7).codec, by decide, Or.inl rfl⟩)⟩

end FFmpegPlayer
